import Mathlib

/-!
# Verification of the DocParser document-understanding core

A shallow embedding of the structure-assembly and hybrid-matching engine of
the DocParser pipeline (files `semantic-matcher.js`, `document-analyzer.js`,
`ollama-handler.js`, and the pipeline driver), together with proofs of the
specified properties.

Conventions of the embedding:
* JavaScript numbers are modelled as rationals (`ℚ`); `Number.prototype.toFixed(3)`
  followed by `parseFloat` is modelled as rounding to the nearest thousandth.
* JavaScript strings are modelled as `String`; the handful of string methods the
  source uses (`trim`, `toLowerCase`, `replace`, `split`, `substring`, `includes`)
  are re-implemented character-wise below with JavaScript semantics.
* A possibly-absent object (the Ollama handler) is an `Option`; a JavaScript
  `throw` caught by a caller is an `Except.error` value.
* The similarity functions `fuzzyMatch` and `cosineSimilarity` live in
  `matching_utils.js`, which is not part of the sources being verified; they are
  parameters of the model, as are the raw outcomes of the external Ollama
  process (one `Except String String` per spawn attempt) and the numeric parse
  of the judge's free-form reply.
* `Array.prototype.sort` (a stable sort by a comparator) is modelled by
  `List.mergeSort` with the boolean relation "comparator result ≤ 0".
* The sequencing of judge calls produced by the batch loop of
  `findBestMatches` (issue all calls of a batch, `await Promise.all`, move to
  the next batch) is modelled by an explicit event trace, `batchTrace`.
-/

namespace DocParser

/-! ## JavaScript-style primitives -/

/-- A bounding box as the source passes it around (an opaque array of numbers). -/
abbrev Rect := List ℚ

/-- JavaScript `\w` character class (ASCII): letters, digits, underscore. -/
def jsWordChar (c : Char) : Bool :=
  c.isAlphanum || c = '_'

/-- JavaScript `\s` character class, restricted to the ASCII whitespace that
occurs in the pipeline's data. -/
def jsWs (c : Char) : Bool :=
  c.isWhitespace

/-- `String.prototype.trim`. -/
def jsTrim (s : String) : String :=
  (((s.toList.dropWhile jsWs).reverse.dropWhile jsWs).reverse).asString

/-- Worker for `collapseWs`: the boolean records whether the previous character
belonged to a whitespace run. -/
def collapseWsGo : List Char → Bool → List Char
  | [], _ => []
  | c :: cs, inRun =>
    if jsWs c then
      (if inRun then [] else [' ']) ++ collapseWsGo cs true
    else
      c :: collapseWsGo cs false

/-- `s.replace(/\s+/g, " ")`: every whitespace run becomes a single space. -/
def collapseWs (s : String) : String :=
  (collapseWsGo s.toList false).asString

/-- The allow-list of `_cleanText` in `document-analyzer.js`:
characters kept by `replace(/[^\w\s\-.,!?:;()]/g, "")`. -/
def allowedChar (c : Char) : Bool :=
  jsWordChar c || jsWs c ||
    c = '-' || c = '.' || c = ',' || c = '!' || c = '?' ||
    c = ':' || c = ';' || c = '(' || c = ')'

/-- `DocumentAnalyzer._cleanText`: collapse whitespace runs, strip characters
outside the allow-list, trim.  A non-string input is mapped to `""` by the
source; the model's inputs are always strings. -/
def cleanText (text : String) : String :=
  jsTrim (((collapseWs text).toList.filter allowedChar).asString)

/-- `String.prototype.toLowerCase` (ASCII, which is all the source feeds it). -/
def jsToLower (s : String) : String :=
  (s.toList.map Char.toLower).asString

/-- Worker for `replaceFirstHyphen`. -/
def replaceFirstHyphenGo : List Char → List Char
  | [] => []
  | c :: cs => if c = '-' then '_' :: cs else c :: replaceFirstHyphenGo cs

/-- `s.replace("-", "_")`: a string pattern replaces only the first occurrence. -/
def replaceFirstHyphen (s : String) : String :=
  (replaceFirstHyphenGo s.toList).asString

/-- `String.prototype.includes` (substring containment). -/
def jsIncludes (s pat : String) : Bool :=
  decide (pat.toList <:+: s.toList)

mutual

/-- Worker for `jsSplitRuns`: scanning inside a token (accumulated in reverse). -/
def splitRunsTok (p : Char → Bool) : List Char → List Char → List String
  | [], acc => [acc.reverse.asString]
  | c :: cs, acc =>
    if p c then acc.reverse.asString :: splitRunsSep p cs
    else splitRunsTok p cs (c :: acc)

/-- Worker for `jsSplitRuns`: scanning just after a separator run. -/
def splitRunsSep (p : Char → Bool) : List Char → List String
  | [] => [""]
  | c :: cs => if p c then splitRunsSep p cs else splitRunsTok p cs [c]

end

/-- `s.split(re)` where `re` matches maximal nonempty runs of characters
satisfying `p` (the source uses `/\s+/` and `/[.!?]+/`): pieces between
separator runs, with an empty piece at an end that starts or ends with a
separator, and `[""]` for the empty string. -/
def jsSplitRuns (p : Char → Bool) (s : String) : List String :=
  splitRunsTok p s.toList []

/-- `SemanticMatcher._truncateText`: texts longer than `maxLength` are cut to
`maxLength - 3` characters with `"..."` appended. -/
def truncateText (text : String) (maxLength : ℕ) : String :=
  if text.length ≤ maxLength then text
  else ((text.toList.take (maxLength - 3)).asString) ++ "..."

/-- `parseFloat(x.toFixed(3))`: round to the nearest thousandth (ties up). -/
def round3 (q : ℚ) : ℚ :=
  (Int.floor (q * 1000 + 1/2) : ℚ) / 1000

/-- `Math.round`. -/
def jsRound (q : ℚ) : ℤ :=
  Int.floor (q + 1/2)

/-- `Math.max(0, Math.min(1, x))` as used by `getSemanticRelevance`. -/
def clamp01 (q : ℚ) : ℚ :=
  max 0 (min 1 q)

/-- Truthiness of a nullable string (`null`/`undefined` and `""` are falsy). -/
def jsStrTruthy : Option String → Bool
  | none => false
  | some s => decide (s ≠ "")

/-- JavaScript `config.x || default` for a possibly-omitted numeric option:
`undefined` and `0` both select the default. -/
def jsNumOr (v : Option ℚ) (d : ℚ) : ℚ :=
  match v with
  | none => d
  | some x => if x = 0 then d else x

/-- `config.x || default` for an integer-valued option. -/
def jsNatOr (v : Option ℕ) (d : ℕ) : ℕ :=
  match v with
  | none => d
  | some x => if x = 0 then d else x

/-! ## Data model shared by the analyzer and the matcher -/

/-- One item of a section's `content` array (`document-analyzer.js`). -/
structure ContentItem where
  type : String
  text : String
  page : ℕ
  confidence : ℚ
  bbox : Option Rect
deriving DecidableEq, Repr

/-- A `Section` of the hierarchical structure.  The source stores `wordCount`
and `elementCount` in a nested `metadata` object; they are inlined here.
`index` is assigned during post-processing (it is absent before that; the
model initialises it to `0`). -/
structure Section where
  title : String
  page : ℕ
  confidence : ℚ
  bbox : Option Rect
  content : List ContentItem
  wordCount : ℕ
  elementCount : ℕ
  index : ℕ
deriving DecidableEq, Repr

/-- The `structure.metadata` counters of `createDocumentStructure`. -/
structure StructMeta where
  totalElements : ℕ
  textElements : ℕ
  sectionHeaders : ℕ
  titles : ℕ
deriving DecidableEq, Repr

/-- One element of a page's `elements` array (a normalised copy of a detection). -/
structure PageElement where
  type : String
  text : String
  confidence : ℚ
  bbox : Option Rect
  normalizedBbox : Option Rect
  readingOrder : ℕ
  area : ℚ
  center : ℚ × ℚ
deriving DecidableEq, Repr

/-- The per-page record pushed onto `structure.pages` (its nested `metadata`
is inlined). -/
structure PageContent where
  pageNumber : ℕ
  elements : List PageElement
  processingTime : ℚ
  totalElements : ℕ
deriving DecidableEq, Repr

/-- The hierarchical `structure` object built by `createDocumentStructure`.
`title` is `none` while unset; a set title may still be the empty string,
which JavaScript treats as falsy, hence the `Option String`. -/
structure DocumentStructure where
  title : Option String
  sections : List Section
  pages : List PageContent
  metadata : StructMeta
deriving DecidableEq, Repr

/-- A layout/OCR detection as delivered to `createDocumentStructure`
(an absent `extractedText` is modelled as `""`, which is equi-falsy). -/
structure Detection where
  label : String
  extractedText : String
  confidence : ℚ
  bbox : Option Rect
  normalizedBbox : Option Rect
  readingOrder : ℕ
  area : ℚ
  center : ℚ × ℚ
deriving DecidableEq, Repr

/-- One page of PDF-processor output. -/
structure PageResult where
  pageNumber : ℕ
  processingTime : ℚ
  detections : List Detection
deriving DecidableEq, Repr

/-! ## SemanticMatcher: configuration, statistics, match records -/

/-- The resolved configuration of `SemanticMatcher` (`this.config`). -/
structure SMConfig where
  minMatchScore : ℚ
  aiEnhancedMode : Bool
  fuzzyWeight : ℚ
  cosineWeight : ℚ
  aiWeight : ℚ
  maxConcurrentAIRequests : ℕ
  timeoutMs : ℚ
deriving DecidableEq, Repr

/-- The raw options object passed to the `SemanticMatcher` constructor. -/
structure SMOptions where
  minMatchScore : Option ℚ
  aiEnhancedMode : Option Bool
  fuzzyWeight : Option ℚ
  cosineWeight : Option ℚ
  aiWeight : Option ℚ
  maxConcurrentAIRequests : Option ℕ
  timeoutMs : Option ℚ
deriving DecidableEq, Repr

/-- The `SemanticMatcher` constructor's resolution of options to `this.config`:
every numeric option goes through `||`, and `aiEnhancedMode` is
`config.aiEnhancedMode !== false`. -/
def mkSMConfig (o : SMOptions) : SMConfig where
  minMatchScore := jsNumOr o.minMatchScore (1/10)
  aiEnhancedMode := o.aiEnhancedMode ≠ some false
  fuzzyWeight := jsNumOr o.fuzzyWeight (3/10)
  cosineWeight := jsNumOr o.cosineWeight (4/10)
  aiWeight := jsNumOr o.aiWeight (3/10)
  maxConcurrentAIRequests := jsNatOr o.maxConcurrentAIRequests 3
  timeoutMs := jsNumOr o.timeoutMs 30000

/-- The options object with every field omitted. -/
def noSMOptions : SMOptions :=
  ⟨none, none, none, none, none, none, none⟩

/-- The configuration produced by `new SemanticMatcher(handler)` with no
options: all defaults. -/
def defaultSMConfig : SMConfig :=
  mkSMConfig noSMOptions

/-- `this.stats` of `SemanticMatcher`. -/
structure SMStats where
  totalMatches : ℕ
  aiEnhancedMatches : ℕ
  traditionalMatches : ℕ
  failedAIMatches : ℕ
deriving DecidableEq, Repr

/-- The all-zero statistics a fresh `SemanticMatcher` starts with. -/
def initialStats : SMStats :=
  ⟨0, 0, 0, 0⟩

/-- An entry of the matcher's search index (`_createSearchIndex`). -/
structure Element where
  type : String
  text : String
  page : ℕ
  «section» : Option ℕ
  importance : ℚ
  bbox : Option Rect
deriving DecidableEq, Repr

/-- A match object as emitted by `_findTopicMatches`. -/
structure Match where
  document : String
  topic : String
  section_title : String
  page_number : ℕ
  importance_rank : ℕ
  match_score : ℚ
  match_type : String
  traditional_score : ℚ
  ai_score : ℚ
  element_importance : ℚ
  bbox : Option Rect
deriving DecidableEq, Repr

/-- A candidate of `_findTopicMatches`: an element with its traditional score
and its (initially `0`) AI score. -/
structure Candidate where
  element : Element
  traditionalScore : ℚ
  aiScore : ℚ
deriving DecidableEq, Repr

/-- The relevance-judge interface the matcher calls: a judged score, or the
error the matcher's `catch` would receive. -/
abbrev Judge := String → String → Except String ℚ

/-! ## OllamaHandler (`ollama-handler.js`) -/

/-- `OllamaHandler.executePrompt`'s retry loop, driven by the raw outcomes of
the successive `ollama run` spawns (one `Except` per attempt; a missing entry
means the process could not be started).  A nonempty trimmed response on some
attempt within the retry budget succeeds; otherwise the final attempt's
failure is thrown. -/
def executePromptGo : ℕ → List (Except String String) → Except String String
  | 0, _ => Except.error "Ollama failed after 0 attempts"
  | n + 1, attempts =>
    match attempts.headD (Except.error "Failed to start Ollama process") with
    | Except.ok out =>
      if jsTrim out = "" then
        match n with
        | 0 => Except.error "Empty response from Ollama"
        | _ + 1 => executePromptGo n attempts.tail
      else Except.ok (jsTrim out)
    | Except.error e =>
      match n with
      | 0 => Except.error e
      | _ + 1 => executePromptGo n attempts.tail

/-- `executePrompt` with the handler's default retry budget of 3 (the budget
`getSemanticRelevance` runs under, since it overrides only the timeout). -/
def executePrompt (attempts : List (Except String String)) : Except String String :=
  executePromptGo 3 attempts

/-- `OllamaHandler.getSemanticRelevance` for one `(topic, text)` call.
`attempts` are the raw outcomes of the underlying process spawns and `parse`
models `parseFloat(response.match(/\d*\.?\d+/)?.[0] || "0")`, the numeric
extraction from the model's free-form reply.  Texts shorter than 10
characters score 0 without any call; a successful reply is clamped into
`[0, 1]`; every `executePrompt` failure is caught and becomes 0. -/
def getSemanticRelevance (parse : String → ℚ)
    (attempts : List (Except String String)) (text : String) : ℚ :=
  if text = "" ∨ text.length < 10 then 0
  else
    match executePrompt attempts with
    | Except.ok response => clamp01 (parse response)
    | Except.error _ => 0

/-- The judge the deployed pipeline wires into the matcher: it calls
`getSemanticRelevance`, which never throws, so the result is always `ok`.
`oracle` supplies the raw spawn outcomes for each `(topic, text)` call. -/
def ollamaJudge (oracle : String → String → List (Except String String))
    (parse : String → ℚ) : Judge :=
  fun topic text => Except.ok (getSemanticRelevance parse (oracle topic text) text)

/-! ## SemanticMatcher (`semantic-matcher.js`) -/

/-- `SemanticMatcher._calculateTraditionalScore`. -/
def calculateTraditionalScore (fuzzy cosine : String → String → ℚ)
    (cfg : SMConfig) (topic text : String) : ℚ :=
  if text = "" ∨ text.length < 3 then 0
  else fuzzy topic text * cfg.fuzzyWeight + cosine topic text * cfg.cosineWeight

/-- `SemanticMatcher._calculateFinalScore`; `hasJudge` is the truthiness of
`this.ollamaHandler`. -/
def calculateFinalScore (cfg : SMConfig) (hasJudge : Bool) (traditionalScore aiScore : ℚ) : ℚ :=
  if hasJudge = false ∨ cfg.aiEnhancedMode = false ∨ aiScore = 0 then
    traditionalScore / (cfg.fuzzyWeight + cfg.cosineWeight)
  else
    traditionalScore / (cfg.fuzzyWeight + cfg.cosineWeight) * (1 - cfg.aiWeight) +
      aiScore * cfg.aiWeight

/-- `SemanticMatcher._getContentImportance`. -/
def getContentImportance (contentType : String) : ℚ :=
  if contentType = "Title" then 1
  else if contentType = "Section-header" then 8/10
  else if contentType = "Text" then 6/10
  else if contentType = "List-item" then 5/10
  else if contentType = "Caption" then 4/10
  else if contentType = "Table" then 7/10
  else if contentType = "Formula" then 3/10
  else 4/10

/-- `SemanticMatcher._createSearchIndex`: document title first (when truthy),
then per section its header followed by those content items whose text is
truthy and longer than 10 characters. -/
def smCreateSearchIndex (ds : DocumentStructure) : List Element :=
  (if jsStrTruthy ds.title then
    [{ type := "title", text := ds.title.getD "", page := 1, «section» := none,
       importance := 1, bbox := none }]
  else []) ++
  ds.sections.flatMap (fun sec =>
    { type := "section-header", text := sec.title, page := sec.page,
      «section» := some sec.index, importance := 8/10, bbox := sec.bbox } ::
    sec.content.filterMap (fun c =>
      if c.text ≠ "" ∧ 10 < c.text.length then
        some { type := replaceFirstHyphen (jsToLower c.type), text := c.text,
               page := c.page, «section» := some sec.index,
               importance := getContentImportance c.type, bbox := c.bbox }
      else none))

/-- Worker for `createBatches`, structurally recursive on a fuel that the
caller sets to the list length. -/
def createBatchesGo (batchSize : ℕ) : ℕ → List String → List (List String)
  | 0, _ => []
  | _, [] => []
  | fuel + 1, items => items.take batchSize :: createBatchesGo batchSize fuel (items.drop batchSize)

/-- `SemanticMatcher._createBatches`: slice the topic list into consecutive
chunks of `batchSize` (the loop would not terminate for `batchSize = 0`;
the model returns `[]` there, and every property below assumes `0 < batchSize`). -/
def createBatches (items : List String) (batchSize : ℕ) : List (List String) :=
  if batchSize = 0 then [] else createBatchesGo batchSize items.length items

/-- The comparator of `candidates.sort((a, b) => b.traditionalScore - a.traditionalScore)`
as a boolean "a stays before b" relation. -/
def candidateLe (a b : Candidate) : Bool :=
  decide (b.traditionalScore ≤ a.traditionalScore)

/-- The comparator of the final `matches.sort` of `findBestMatches` (ascending
importance rank, descending match score) as a boolean relation. -/
def matchLe (a b : Match) : Bool :=
  decide (a.importance_rank < b.importance_rank) ||
    (decide (a.importance_rank = b.importance_rank) && decide (b.match_score ≤ a.match_score))

/-- The traditional-scoring pass of `_findTopicMatches`: every index element
with a positive traditional score becomes a candidate with AI score 0. -/
def topicCandidates (fuzzy cosine : String → String → ℚ) (cfg : SMConfig)
    (topic : String) (searchIndex : List Element) : List Candidate :=
  searchIndex.filterMap (fun e =>
    let t := calculateTraditionalScore fuzzy cosine cfg topic e.text
    if 0 < t then some ⟨e, t, 0⟩ else none)

/-- The in-place mutation `candidate.aiScore = await judge(...)` for one
candidate; a judge failure is caught and leaves the traditional-only
candidate unchanged. -/
def applyJudge (judge : Judge) (topic : String) (c : Candidate) : Candidate :=
  match judge topic c.element.text with
  | Except.ok s => { c with aiScore := s }
  | Except.error _ => c

/-- The statistics effect of judging one candidate: `aiEnhancedMatches` on
success, `failedAIMatches` on a caught failure. -/
def judgeStatsOne (judge : Judge) (topic : String) (c : Candidate) (st : SMStats) : SMStats :=
  match judge topic c.element.text with
  | Except.ok _ => { st with aiEnhancedMatches := st.aiEnhancedMatches + 1 }
  | Except.error _ => { st with failedAIMatches := st.failedAIMatches + 1 }

/-- The statistics effect of judging a list of candidates. -/
def judgeStatsList (judge : Judge) (topic : String) : List Candidate → SMStats → SMStats
  | [], st => st
  | c :: cs, st => judgeStatsList judge topic cs (judgeStatsOne judge topic c st)

/-- The candidate list after the AI-enhancement phase of `_findTopicMatches`:
because `candidates.sort` sorts in place and `slice(0, 5)` copies references,
the final loop sees the sorted order with the first five candidates carrying
their judged scores.  With no handler, AI mode off, or no candidates, the
sorted traditional-only list is used unchanged. -/
def enhancedCandidates (cfg : SMConfig) (judge? : Option Judge)
    (fuzzy cosine : String → String → ℚ) (topic : String)
    (searchIndex : List Element) : List Candidate :=
  let sorted := (topicCandidates fuzzy cosine cfg topic searchIndex).mergeSort candidateLe
  match judge? with
  | some judge =>
    if cfg.aiEnhancedMode = true ∧ sorted.take 5 ≠ [] then
      (sorted.take 5).map (applyJudge judge topic) ++ sorted.drop 5
    else sorted
  | none => sorted

/-- The match object built for a candidate that passed the score filter. -/
def mkMatch (filename topic : String) (topicIndex : ℕ) (c : Candidate)
    (finalScore : ℚ) : Match where
  document := filename
  topic := topic
  section_title := truncateText c.element.text 100
  page_number := c.element.page
  importance_rank := topicIndex + 1
  match_score := round3 finalScore
  match_type := c.element.type
  traditional_score := round3 c.traditionalScore
  ai_score := round3 c.aiScore
  element_importance := c.element.importance
  bbox := c.element.bbox

/-- The match list `_findTopicMatches` returns for one topic (the emitted
matches do not depend on the statistics object, which is threaded separately
by `topicStats`). -/
def topicMatchList (cfg : SMConfig) (judge? : Option Judge)
    (fuzzy cosine : String → String → ℚ) (topic : String)
    (searchIndex : List Element) (filename : String) (topicIndex : ℕ) : List Match :=
  (enhancedCandidates cfg judge? fuzzy cosine topic searchIndex).filterMap (fun c =>
    let finalScore := calculateFinalScore cfg judge?.isSome c.traditionalScore c.aiScore
    if cfg.minMatchScore ≤ finalScore then some (mkMatch filename topic topicIndex c finalScore)
    else none)

/-- The statistics update of one `_findTopicMatches` call: the per-candidate
judging counters for the (at most five) top candidates, then `totalMatches`,
then `traditionalMatches` when no handler or AI mode is off. -/
def topicStats (cfg : SMConfig) (judge? : Option Judge)
    (fuzzy cosine : String → String → ℚ) (topic : String)
    (searchIndex : List Element) (filename : String) (topicIndex : ℕ)
    (st : SMStats) : SMStats :=
  let sorted := (topicCandidates fuzzy cosine cfg topic searchIndex).mergeSort candidateLe
  let st1 :=
    match judge? with
    | some judge =>
      if cfg.aiEnhancedMode = true ∧ sorted.take 5 ≠ [] then
        judgeStatsList judge topic (sorted.take 5) st
      else st
    | none => st
  let n := (topicMatchList cfg judge? fuzzy cosine topic searchIndex filename topicIndex).length
  let st2 := { st1 with totalMatches := st1.totalMatches + n }
  if judge?.isSome = false ∨ cfg.aiEnhancedMode = false then
    { st2 with traditionalMatches := st2.traditionalMatches + n }
  else st2

/-- `_findTopicMatches` proper: the emitted matches together with the updated
statistics. -/
def findTopicMatches (cfg : SMConfig) (judge? : Option Judge)
    (fuzzy cosine : String → String → ℚ) (topic : String)
    (searchIndex : List Element) (filename : String) (topicIndex : ℕ)
    (st : SMStats) : List Match × SMStats :=
  (topicMatchList cfg judge? fuzzy cosine topic searchIndex filename topicIndex,
   topicStats cfg judge? fuzzy cosine topic searchIndex filename topicIndex st)

/-- The concatenation, in processing order, of the per-topic match lists of
`findBestMatches`: batches in order, topics within a batch in order, each
topic paired with `topics.indexOf(topic)` — the position of its FIRST
occurrence in the full topic list. -/
def batchesMatchList (cfg : SMConfig) (judge? : Option Judge)
    (fuzzy cosine : String → String → ℚ) (topics : List String)
    (searchIndex : List Element) (filename : String)
    (batches : List (List String)) : List Match :=
  batches.flatMap (fun batch =>
    batch.flatMap (fun topic =>
      topicMatchList cfg judge? fuzzy cosine topic searchIndex filename
        (topics.indexOf topic)))

/-- The statistics threading of `findBestMatches` over the same traversal. -/
def batchesStats (cfg : SMConfig) (judge? : Option Judge)
    (fuzzy cosine : String → String → ℚ) (topics : List String)
    (searchIndex : List Element) (filename : String) :
    List (List String) → SMStats → SMStats
  | [], st => st
  | batch :: rest, st =>
    batchesStats cfg judge? fuzzy cosine topics searchIndex filename rest
      (batch.foldl (fun acc topic =>
        topicStats cfg judge? fuzzy cosine topic searchIndex filename
          (topics.indexOf topic) acc) st)

/-- `SemanticMatcher.findBestMatches`: build the search index, process the
topics in batches of `maxConcurrentAIRequests`, and sort all matches by
ascending importance rank with descending match score as tie-break. -/
def findBestMatches (cfg : SMConfig) (judge? : Option Judge)
    (fuzzy cosine : String → String → ℚ) (topics : List String)
    (ds : DocumentStructure) (filename : String) (st : SMStats) :
    List Match × SMStats :=
  let searchIndex := smCreateSearchIndex ds
  let batches := createBatches topics cfg.maxConcurrentAIRequests
  ((batchesMatchList cfg judge? fuzzy cosine topics searchIndex filename batches).mergeSort
      matchLe,
   batchesStats cfg judge? fuzzy cosine topics searchIndex filename batches st)

/-- The `_findTopicMatches` call `findBestMatches` makes for the topic at
0-based position `k` of the input list: the batch loop maps over topic
VALUES, so the rank argument is `topics.indexOf` of the value at position `k`. -/
def processTopicAt (cfg : SMConfig) (judge? : Option Judge)
    (fuzzy cosine : String → String → ℚ) (topics : List String)
    (ds : DocumentStructure) (filename : String) (k : ℕ) : List Match :=
  topicMatchList cfg judge? fuzzy cosine (topics.getD k "")
    (smCreateSearchIndex ds) filename (topics.indexOf (topics.getD k ""))

/-! ### The batch-level event trace

`findBestMatches` awaits `Promise.all` of each batch before starting the next,
so on the single-threaded event loop every judge call of batch `i` is issued,
and has resolved (with a score or a caught failure), before any call of batch
`i + 1` is issued.  The trace records, per batch in execution order, first the
issue events and then the resolution events of that batch, each tagged with
its batch index. -/

/-- A judge-call event of the batch scheduler. -/
inductive JudgeEvent where
  | issue (topic : String)
  | resolve (topic : String)
deriving DecidableEq, Repr

/-- The events of one batch: all its calls are issued, then the batch is
complete only when all of them have resolved. -/
def batchSegment (i : ℕ) (batch : List String) : List (ℕ × JudgeEvent) :=
  batch.map (fun t => (i, JudgeEvent.issue t)) ++ batch.map (fun t => (i, JudgeEvent.resolve t))

/-- The trace of the batch loop from batch index `i` on. -/
def batchTraceGo : ℕ → List (List String) → List (ℕ × JudgeEvent)
  | _, [] => []
  | i, batch :: rest => batchSegment i batch ++ batchTraceGo (i + 1) rest

/-- The judge-call trace of one `findBestMatches` run. -/
def batchTrace (topics : List String) (batchSize : ℕ) : List (ℕ × JudgeEvent) :=
  batchTraceGo 0 (createBatches topics batchSize)

/-! ## DocumentAnalyzer (`document-analyzer.js`) -/

/-- The resolved configuration of `DocumentAnalyzer`. -/
structure DAConfig where
  minTextLength : ℕ
  sectionThreshold : ℚ
  titleThreshold : ℚ
deriving DecidableEq, Repr

/-- The raw options object of the `DocumentAnalyzer` constructor. -/
structure DAOptions where
  minTextLength : Option ℕ
  sectionThreshold : Option ℚ
  titleThreshold : Option ℚ
deriving DecidableEq, Repr

/-- The `DocumentAnalyzer` constructor: every option goes through `||`. -/
def mkDAConfig (o : DAOptions) : DAConfig where
  minTextLength := jsNatOr o.minTextLength 10
  sectionThreshold := jsNumOr o.sectionThreshold (7/10)
  titleThreshold := jsNumOr o.titleThreshold (8/10)

/-- The options object with every field omitted. -/
def noDAOptions : DAOptions :=
  ⟨none, none, none⟩

/-- The configuration of `new DocumentAnalyzer()`. -/
def defaultDAConfig : DAConfig :=
  mkDAConfig noDAOptions

/-- The reading-order comparator of `createDocumentStructure` ("a stays before
b" for the stable in-place sort): vertical difference when it exceeds the
20-unit tolerance band, horizontal difference otherwise. -/
def detectionLe (a b : Detection) : Bool :=
  let yDiff := a.center.2 - b.center.2
  if 20 < |yDiff| then decide (yDiff ≤ 0) else decide (a.center.1 ≤ b.center.1)

/-- The text markers that exclude a detection's text from the running
summarisation accumulator. -/
def isFailureText (t : String) : Bool :=
  jsIncludes t "OCR not available" || jsIncludes t "extraction failed"

/-- The mutable scan state of `createDocumentStructure` (pages and the raw
detection accumulator are threaded alongside). -/
structure BuildState where
  title : Option String
  sections : List Section
  current : Option Section
  meta : StructMeta
  allText : String
deriving DecidableEq, Repr

/-- The metadata-counter updates for one detection. -/
def bumpMeta (label : String) (m : StructMeta) : StructMeta where
  totalElements := m.totalElements + 1
  textElements := m.textElements + (if label = "Text" ∨ label = "List-item" then 1 else 0)
  sectionHeaders := m.sectionHeaders + (if label = "Section-header" then 1 else 0)
  titles := m.titles + (if label = "Title" then 1 else 0)

/-- The hierarchical-structure branch of the detection loop: set the document
title, or close the current section (kept only when it has content) and open
a new one, or append content to the open section. -/
def structStep (cfg : DAConfig) (pageNumber : ℕ) (st : BuildState) (d : Detection) :
    BuildState :=
  if d.label = "Title" ∧ jsStrTruthy st.title = false ∧
      cfg.titleThreshold ≤ d.confidence ∧ d.extractedText ≠ "" then
    { st with title := some (cleanText d.extractedText) }
  else if d.label = "Section-header" ∧ cfg.sectionThreshold ≤ d.confidence ∧
      d.extractedText ≠ "" then
    let closed :=
      match st.current with
      | some cs => if cs.content ≠ [] then st.sections ++ [cs] else st.sections
      | none => st.sections
    { st with
      sections := closed
      current := some
        { title := cleanText d.extractedText, page := pageNumber,
          confidence := d.confidence, bbox := d.bbox, content := [],
          wordCount := 0, elementCount := 0, index := 0 } }
  else
    match st.current with
    | some cs =>
      if (d.label = "Text" ∨ d.label = "List-item" ∨ d.label = "Caption") ∧
          d.extractedText ≠ "" then
        let ct := cleanText d.extractedText
        if cfg.minTextLength ≤ ct.length then
          let item : ContentItem :=
            { type := d.label, text := ct, page := pageNumber,
              confidence := d.confidence, bbox := d.bbox }
          let grown : Section :=
            { cs with
              content := cs.content ++ [item]
              wordCount := cs.wordCount + (jsSplitRuns jsWs ct).length
              elementCount := cs.elementCount + 1 }
          { st with current := some grown }
        else st
      else st
    | none => st

/-- The full per-detection step: metadata counters, the structure branch, and
the all-text accumulator. -/
def detectionStep (cfg : DAConfig) (pageNumber : ℕ) (st : BuildState) (d : Detection) :
    BuildState :=
  let st1 := { st with meta := bumpMeta d.label st.meta }
  let st2 := structStep cfg pageNumber st1 d
  if d.extractedText ≠ "" ∧ cfg.minTextLength ≤ d.extractedText.length ∧
      isFailureText d.extractedText = false ∧
      cfg.minTextLength ≤ (cleanText d.extractedText).length then
    { st2 with allText := st2.allText ++ cleanText d.extractedText ++ "\n" }
  else st2

/-- The element record pushed onto a page's `elements` array. -/
def toPageElement (d : Detection) : PageElement where
  type := d.label
  text := d.extractedText
  confidence := d.confidence
  bbox := d.bbox
  normalizedBbox := d.normalizedBbox
  readingOrder := d.readingOrder
  area := d.area
  center := d.center

/-- Processing of one page: sort its detections into reading order, run the
detection loop, and record the page content and raw detections. -/
def processPage (cfg : DAConfig)
    (acc : BuildState × List PageContent × List Detection) (pr : PageResult) :
    BuildState × List PageContent × List Detection :=
  let sorted := pr.detections.mergeSort detectionLe
  let st := sorted.foldl (detectionStep cfg pr.pageNumber) acc.1
  let page : PageContent :=
    { pageNumber := pr.pageNumber, elements := sorted.map toPageElement,
      processingTime := pr.processingTime, totalElements := pr.detections.length }
  (st, acc.2.1 ++ [page], acc.2.2 ++ sorted)

/-- The section-retention filter of `_postProcessStructure`. -/
def keepSection (s : Section) : Bool :=
  decide (0 < s.content.length) || decide (3 < s.title.length)

/-- The page-order comparator of `_postProcessStructure`'s section sort. -/
def sectionLe (a b : Section) : Bool :=
  decide (a.page ≤ b.page)

/-- The `forEach` that writes 1-based indices into the final section order. -/
def assignIndices : ℕ → List Section → List Section
  | _, [] => []
  | k, s :: rest => { s with index := k } :: assignIndices (k + 1) rest

/-- `DocumentAnalyzer._postProcessStructure`: drop sections with no content
and a short title, sort by page, infer a missing title from the first
retained section when its title is long enough, and assign indices. -/
def postProcessStructure (ds : DocumentStructure) : DocumentStructure :=
  let kept := ds.sections.filter keepSection
  let sorted := kept.mergeSort sectionLe
  let newTitle :=
    match jsStrTruthy ds.title, sorted with
    | false, s0 :: _ => if 5 < s0.title.length then some s0.title else ds.title
    | _, _ => ds.title
  { ds with title := newTitle, sections := assignIndices 1 sorted }

/-- The statistics record `_generateStatistics` derives. -/
structure DAStatistics where
  totalPages : ℕ
  totalSections : ℕ
  totalElements : ℕ
  textElements : ℕ
  sectionHeaders : ℕ
  titles : ℕ
  wordCount : ℕ
  sentenceCount : ℕ
  averageWordsPerSentence : ℤ
  sectionsWithContent : ℕ
  averageContentPerSection : ℤ
deriving DecidableEq, Repr

/-- Sentence-terminal punctuation (`/[.!?]+/`). -/
def sentencePunct (c : Char) : Bool :=
  c = '.' || c = '!' || c = '?'

/-- `DocumentAnalyzer._generateStatistics`. -/
def generateStatistics (ds : DocumentStructure) (allText : String) : DAStatistics :=
  let words := (jsSplitRuns jsWs allText).filter (fun w => 0 < w.length)
  let sentences := (jsSplitRuns sentencePunct allText).filter (fun s => 0 < (jsTrim s).length)
  { totalPages := ds.pages.length
    totalSections := ds.sections.length
    totalElements := ds.metadata.totalElements
    textElements := ds.metadata.textElements
    sectionHeaders := ds.metadata.sectionHeaders
    titles := ds.metadata.titles
    wordCount := words.length
    sentenceCount := sentences.length
    averageWordsPerSentence :=
      if 0 < sentences.length then jsRound ((words.length : ℚ) / sentences.length) else 0
    sectionsWithContent := (ds.sections.filter (fun s => 0 < s.content.length)).length
    averageContentPerSection :=
      if 0 < ds.sections.length then
        jsRound (((ds.sections.map (fun s => s.content.length)).sum : ℚ) / ds.sections.length)
      else 0 }

/-- The return value of `createDocumentStructure`. -/
structure BuildResult where
  «structure» : DocumentStructure
  allText : String
  allDetections : List Detection
  statistics : DAStatistics
deriving DecidableEq, Repr

/-- `DocumentAnalyzer.createDocumentStructure`: scan all pages in reading
order building the hierarchy, close the final open section when it has
content, post-process, and derive statistics. -/
def createDocumentStructure (cfg : DAConfig) (pageResults : List PageResult) :
    BuildResult :=
  let init : BuildState × List PageContent × List Detection :=
    ({ title := none, sections := [], current := none,
       meta := ⟨0, 0, 0, 0⟩, allText := "" }, [], [])
  let scanned := pageResults.foldl (processPage cfg) init
  let st := scanned.1
  let finalSections :=
    match st.current with
    | some cs => if cs.content ≠ [] then st.sections ++ [cs] else st.sections
    | none => st.sections
  let ds : DocumentStructure :=
    postProcessStructure
      { title := st.title, sections := finalSections, pages := scanned.2.1,
        metadata := st.meta }
  { «structure» := ds
    allText := jsTrim st.allText
    allDetections := scanned.2.2
    statistics := generateStatistics ds st.allText }

/-- An entry of the analyzer's persisted search index (`createSearchIndex` in
`document-analyzer.js`; unlike the matcher's entries it carries no `bbox`). -/
structure SearchEntry where
  type : String
  text : String
  page : ℕ
  «section» : Option ℕ
  importance : ℚ
deriving DecidableEq, Repr

/-- `DocumentAnalyzer.createSearchIndex`: title first (when truthy), then per
section its header followed by ALL of its content items. -/
def daCreateSearchIndex (ds : DocumentStructure) : List SearchEntry :=
  (if jsStrTruthy ds.title then
    [{ type := "title", text := ds.title.getD "", page := 1, «section» := none,
       importance := 1 }]
  else []) ++
  ds.sections.flatMap (fun sec =>
    { type := "section-header", text := sec.title, page := sec.page,
      «section» := some sec.index, importance := 8/10 } ::
    sec.content.map (fun c =>
      { type := jsToLower c.type, text := c.text, page := c.page,
        «section» := some sec.index,
        importance := if c.type = "Text" then 6/10 else 4/10 }))

/-- The five fields per position asserted equal for the two indexes. -/
def elemView (e : Element) : String × String × ℕ × Option ℕ × ℚ :=
  (e.type, e.text, e.page, e.«section», e.importance)

/-- The same projection on the analyzer's entries. -/
def entryView (e : SearchEntry) : String × String × ℕ × Option ℕ × ℚ :=
  (e.type, e.text, e.page, e.«section», e.importance)

/-! ## Pipeline driver (`performSemanticMatching` in `main1B.js`) -/

/-- The cross-document concatenation the pipeline builds: `findBestMatches`
per analysed document (filename and structure), all results appended. -/
def allDocsMatchList (cfg : SMConfig) (judge? : Option Judge)
    (fuzzy cosine : String → String → ℚ) (topics : List String)
    (analyses : List (String × DocumentStructure)) : List Match :=
  analyses.flatMap (fun a =>
    (findBestMatches cfg judge? fuzzy cosine topics a.2 a.1 initialStats).1)

/-- `performSemanticMatching`: collect every document's matches and sort them
all with the same rank-then-score comparator. -/
def performSemanticMatching (cfg : SMConfig) (judge? : Option Judge)
    (fuzzy cosine : String → String → ℚ) (topics : List String)
    (analyses : List (String × DocumentStructure)) : List Match :=
  (allDocsMatchList cfg judge? fuzzy cosine topics analyses).mergeSort matchLe

/-- The sortedness relation asserted of the emitted match list: strictly
smaller importance rank, or equal rank with a match score at least as large. -/
def matchRel (a b : Match) : Prop :=
  a.importance_rank < b.importance_rank ∨
    (a.importance_rank = b.importance_rank ∧ b.match_score ≤ a.match_score)

/-! ## Concrete fixtures used by witnesses and counterexamples -/

/-- A similarity function that rates every pair 1 (the similarity functions
live outside the verified sources, so concrete runs pin one down). -/
def constOne : String → String → ℚ := fun _ _ => 1

/-- A one-element document structure: a title and no sections. -/
def titleOnlyDS : DocumentStructure :=
  { title := some "Sample Document Title", sections := [], pages := [], metadata := ⟨0, 0, 0, 0⟩ }

/-- The single search-index element of `titleOnlyDS`. -/
def titleElem : Element :=
  { type := "title", text := "Sample Document Title", page := 1, «section» := none,
    importance := 1, bbox := none }

/-- The candidate the matcher builds from `titleElem` with `constOne`
similarities and default weights. -/
def titleCand : Candidate := ⟨titleElem, 7/10, 0⟩

/-- The match emitted for `titleElem` at topic position 1. -/
def alphaMatch : Match :=
  { document := "doc.pdf", topic := "Alpha", section_title := "Sample Document Title",
    page_number := 1, importance_rank := 1, match_score := 1, match_type := "title",
    traditional_score := 7/10, ai_score := 0, element_importance := 1, bbox := none }

/-- An oracle on whose runs every `ollama` spawn fails. -/
def failOracle : String → String → List (Except String String) :=
  fun _ _ => [Except.error "spawn failed", Except.error "spawn failed", Except.error "spawn failed"]

/-- A trivial parse of judge replies. -/
def parseZero : String → ℚ := fun _ => 0

/-- A structure whose one section holds one List-item content of 11 characters:
the two search-index builders disagree on it. -/
def listItemDS : DocumentStructure :=
  { title := none
    sections := [{ title := "Items", page := 1, confidence := 9/10, bbox := none,
                   content := [{ type := "List-item", text := "abcdefghijk", page := 1,
                                 confidence := 9/10, bbox := none }],
                   wordCount := 1, elementCount := 1, index := 1 }]
    pages := [], metadata := ⟨0, 0, 0, 0⟩ }

/-- A structure whose one section holds one Text content of more than 10
characters: here the two search-index builders agree. -/
def textOnlyDS : DocumentStructure :=
  { title := none
    sections := [{ title := "Notes", page := 1, confidence := 9/10, bbox := none,
                   content := [{ type := "Text", text := "plenty of characters", page := 1,
                                 confidence := 9/10, bbox := none }],
                   wordCount := 3, elementCount := 1, index := 1 }]
    pages := [], metadata := ⟨0, 0, 0, 0⟩ }

/-- A section-header detection for the analyzer fixtures. -/
def dIntro : Detection :=
  { label := "Section-header", extractedText := "Introduction", confidence := 9/10,
    bbox := none, normalizedBbox := none, readingOrder := 0, area := 10, center := (1, 1) }

/-- A text detection for the analyzer fixtures. -/
def dText : Detection :=
  { label := "Text", extractedText := "Some interesting content.", confidence := 8/10,
    bbox := none, normalizedBbox := none, readingOrder := 1, area := 10, center := (1, 50) }

/-- One page holding `dIntro` then `dText`. -/
def introPage : PageResult :=
  { pageNumber := 1, processingTime := 5, detections := [dIntro, dText] }

/-- The content item the analyzer builds from `dText`. -/
def introItem : ContentItem :=
  { type := "Text", text := "Some interesting content.", page := 1, confidence := 8/10, bbox := none }

/-- The section built from `introPage` before index assignment. -/
def introSection0 : Section :=
  { title := "Introduction", page := 1, confidence := 9/10, bbox := none,
    content := [introItem], wordCount := 3, elementCount := 1, index := 0 }

/-- The section built from `introPage` after post-processing. -/
def introSection : Section :=
  { title := "Introduction", page := 1, confidence := 9/10, bbox := none,
    content := [introItem], wordCount := 3, elementCount := 1, index := 1 }

/-- The freshly opened section after `dIntro` is processed. -/
def openSec : Section :=
  { title := "Introduction", page := 1, confidence := 9/10, bbox := none,
    content := [], wordCount := 0, elementCount := 0, index := 0 }

/-- The scan state after both detections of `introPage` are processed. -/
def stateAfterBoth : BuildState :=
  { title := none, sections := [], current := some introSection0,
    meta := ⟨2, 1, 1, 0⟩, allText := "Introduction\nSome interesting content.\n" }

/-! ## Basic lemmas about the numeric helpers -/

theorem round3_nonneg {q : ℚ} (h : 0 ≤ q) : 0 ≤ round3 q := by
  unfold round3
  have h1 : (0 : ℚ) ≤ q * 1000 + 1/2 := by linarith
  have h2 : (0 : ℤ) ≤ Int.floor (q * 1000 + 1/2) := Int.floor_nonneg.mpr h1
  have h3 : (0 : ℚ) ≤ (Int.floor (q * 1000 + 1/2) : ℚ) := by exact_mod_cast h2
  positivity

theorem round3_le_one {q : ℚ} (h : q ≤ 1) : round3 q ≤ 1 := by
  unfold round3
  have h1 : q * 1000 + 1/2 ≤ 2001/2 := by linarith
  have h2 : Int.floor (q * 1000 + 1/2) ≤ (1000 : ℤ) := by
    have := Int.floor_le_floor h1
    have he : Int.floor ((2001 : ℚ)/2) = (1000 : ℤ) := by norm_num
    omega
  have h3 : (Int.floor (q * 1000 + 1/2) : ℚ) ≤ 1000 := by exact_mod_cast h2
  linarith

theorem round3_mono {a b : ℚ} (h : a ≤ b) : round3 a ≤ round3 b := by
  unfold round3
  have h1 : a * 1000 + 1/2 ≤ b * 1000 + 1/2 := by linarith
  have h2 := Int.floor_le_floor h1
  have h3 : (Int.floor (a * 1000 + 1/2) : ℚ) ≤ (Int.floor (b * 1000 + 1/2) : ℚ) := by
    exact_mod_cast h2
  linarith

theorem round3_tenth : round3 (1/10) = 1/10 := by
  norm_num [round3]

theorem round3_zero : round3 0 = 0 := by
  norm_num [round3]

theorem clamp01_nonneg (q : ℚ) : 0 ≤ clamp01 q := le_max_left 0 _

theorem clamp01_le_one (q : ℚ) : clamp01 q ≤ 1 := by
  unfold clamp01
  rcases le_total 0 (min 1 q) with h | h
  · rw [max_eq_right h]; exact min_le_left 1 q
  · rw [max_eq_left h]; norm_num

/-- `getSemanticRelevance` never leaves `[0, 1]`: every branch is 0 or clamped. -/
theorem getSemanticRelevance_mem_unit (parse : String → ℚ)
    (attempts : List (Except String String)) (text : String) :
    0 ≤ getSemanticRelevance parse attempts text ∧
      getSemanticRelevance parse attempts text ≤ 1 := by
  unfold getSemanticRelevance
  split
  · norm_num
  · split
    · exact ⟨clamp01_nonneg _, clamp01_le_one _⟩
    · norm_num

/-- The retry loop fails when every attempt fails. -/
theorem executePromptGo_all_errors (n : ℕ) :
    ∀ attempts : List (Except String String),
      (∀ r ∈ attempts, ∃ e, r = Except.error e) →
      ∃ e, executePromptGo n attempts = Except.error e := by
  induction n with
  | zero => exact fun attempts _ => ⟨_, rfl⟩
  | succ k ih =>
    intro attempts hfail
    cases attempts with
    | nil =>
      cases k with
      | zero => exact ⟨_, rfl⟩
      | succ j =>
        simp only [executePromptGo, List.headD, List.tail]
        exact ih [] (by intro r hr; cases hr)
    | cons a rest =>
      obtain ⟨e, he⟩ := hfail a (List.mem_cons_self a rest)
      cases k with
      | zero =>
        simp only [executePromptGo, List.headD, he]
        exact ⟨e, rfl⟩
      | succ j =>
        simp only [executePromptGo, List.headD, List.tail, he]
        exact ih rest (fun r hr => hfail r (List.mem_cons_of_mem a hr))

/-- With an all-failing oracle list, the judge score collapses to `0`. -/
theorem getSemanticRelevance_all_errors (parse : String → ℚ)
    (attempts : List (Except String String)) (text : String)
    (hfail : ∀ r ∈ attempts, ∃ e, r = Except.error e) :
    getSemanticRelevance parse attempts text = 0 := by
  unfold getSemanticRelevance executePrompt
  obtain ⟨e, he⟩ := executePromptGo_all_errors 3 attempts hfail
  rw [he]
  split <;> rfl

/-- `ollamaJudge` never surfaces an error: `getSemanticRelevance` catches
every failure internally. -/
theorem ollamaJudge_total (oracle : String → String → List (Except String String))
    (parse : String → ℚ) (topic text : String) :
    ∃ s, ollamaJudge oracle parse topic text = Except.ok s :=
  ⟨_, rfl⟩

/-! ## Structure of the per-topic match list -/

/-- A guarded `filterMap` is a filter followed by a map. -/
theorem filterMap_guard_eq_filter_map {α β : Type} (p : α → Prop) [DecidablePred p]
    (f : α → β) (l : List α) :
    l.filterMap (fun c => if p c then some (f c) else none) =
      (l.filter (fun c => decide (p c))).map f := by
  induction l with
  | nil => rfl
  | cons a rest ih =>
    by_cases h : p a <;>
      simp [List.filterMap_cons, List.filter_cons, h, ih]

theorem mem_topicCandidates {fuzzy cosine : String → String → ℚ} {cfg : SMConfig}
    {topic : String} {searchIndex : List Element} {c : Candidate}
    (hc : c ∈ topicCandidates fuzzy cosine cfg topic searchIndex) :
    ∃ e ∈ searchIndex,
      0 < calculateTraditionalScore fuzzy cosine cfg topic e.text ∧
      c = ⟨e, calculateTraditionalScore fuzzy cosine cfg topic e.text, 0⟩ := by
  unfold topicCandidates at hc
  obtain ⟨e, he, heq⟩ := List.mem_filterMap.mp hc
  refine ⟨e, he, ?_⟩
  by_cases h : 0 < calculateTraditionalScore fuzzy cosine cfg topic e.text
  · simp only [h, if_pos] at heq
    exact ⟨h, (Option.some_injective _ heq).symm⟩
  · simp only [if_neg h] at heq
    cases heq

/-- Every candidate the final loop of `_findTopicMatches` sees comes from the
traditional pass, possibly with its AI score overwritten by the judge. -/
theorem mem_enhancedCandidates {cfg : SMConfig} {judge? : Option Judge}
    {fuzzy cosine : String → String → ℚ} {topic : String}
    {searchIndex : List Element} {c : Candidate}
    (hc : c ∈ enhancedCandidates cfg judge? fuzzy cosine topic searchIndex) :
    ∃ c0 ∈ topicCandidates fuzzy cosine cfg topic searchIndex,
      c = c0 ∨ ∃ judge, judge? = some judge ∧ c = applyJudge judge topic c0 := by
  unfold enhancedCandidates at hc
  cases hj : judge? with
  | none =>
    rw [hj] at hc
    dsimp only at hc
    exact ⟨c, List.mem_mergeSort.mp hc, Or.inl rfl⟩
  | some judge =>
    rw [hj] at hc
    dsimp only at hc
    by_cases hcond : cfg.aiEnhancedMode = true ∧
        ((topicCandidates fuzzy cosine cfg topic searchIndex).mergeSort candidateLe).take 5 ≠ []
    · rw [if_pos hcond] at hc
      rcases List.mem_append.mp hc with hin | hin
      · obtain ⟨c0, hc0, hceq⟩ := List.mem_map.mp hin
        have hc0s : c0 ∈ (topicCandidates fuzzy cosine cfg topic searchIndex).mergeSort
            candidateLe := List.take_subset 5 _ hc0
        exact ⟨c0, List.mem_mergeSort.mp hc0s, Or.inr ⟨judge, rfl, hceq.symm⟩⟩
      · have hcs : c ∈ (topicCandidates fuzzy cosine cfg topic searchIndex).mergeSort
            candidateLe := List.drop_subset 5 _ hin
        exact ⟨c, List.mem_mergeSort.mp hcs, Or.inl rfl⟩
    · rw [if_neg hcond] at hc
      exact ⟨c, List.mem_mergeSort.mp hc, Or.inl rfl⟩

/-- The traditional score is bounded by the weight sum when both similarity
signals stay in the unit interval and the weights are nonnegative. -/
theorem calculateTraditionalScore_bounds {fuzzy cosine : String → String → ℚ}
    {cfg : SMConfig}
    (hf : ∀ t x, 0 ≤ fuzzy t x ∧ fuzzy t x ≤ 1)
    (hg : ∀ t x, 0 ≤ cosine t x ∧ cosine t x ≤ 1)
    (hfw : 0 ≤ cfg.fuzzyWeight) (hcw : 0 ≤ cfg.cosineWeight)
    (topic text : String) :
    0 ≤ calculateTraditionalScore fuzzy cosine cfg topic text ∧
      calculateTraditionalScore fuzzy cosine cfg topic text ≤
        cfg.fuzzyWeight + cfg.cosineWeight := by
  unfold calculateTraditionalScore
  split
  · constructor
    · norm_num
    · positivity
  · obtain ⟨hf0, hf1⟩ := hf topic text
    obtain ⟨hg0, hg1⟩ := hg topic text
    constructor
    · positivity
    · nlinarith

/-- The final score at the default weights stays in `[0, 1]` for a traditional
score in `[0, 7/10]` and an AI score in `[0, 1]`. -/
theorem calculateFinalScore_default_bounds (hasJudge : Bool) {t a : ℚ}
    (ht0 : 0 ≤ t) (ht1 : t ≤ 7/10) (ha0 : 0 ≤ a) (ha1 : a ≤ 1) :
    0 ≤ calculateFinalScore defaultSMConfig hasJudge t a ∧
      calculateFinalScore defaultSMConfig hasJudge t a ≤ 1 := by
  have hfw : defaultSMConfig.fuzzyWeight = 3/10 := rfl
  have hcw : defaultSMConfig.cosineWeight = 4/10 := rfl
  have haw : defaultSMConfig.aiWeight = 3/10 := rfl
  unfold calculateFinalScore
  rw [hfw, hcw, haw]
  split
  · constructor
    · positivity
    · rw [div_le_one (by norm_num)]
      linarith
  · have hdiv0 : 0 ≤ t / (3/10 + 4/10) := by positivity
    have hdiv1 : t / (3/10 + 4/10) ≤ 1 := by
      rw [div_le_one (by norm_num)]
      linarith
    constructor
    · nlinarith
    · nlinarith

/-- Membership in the emitted per-topic match list, unfolded to the candidate
it was built from. -/
theorem mem_topicMatchList {cfg : SMConfig} {judge? : Option Judge}
    {fuzzy cosine : String → String → ℚ} {topic : String}
    {searchIndex : List Element} {filename : String} {topicIndex : ℕ} {m : Match} :
    m ∈ topicMatchList cfg judge? fuzzy cosine topic searchIndex filename topicIndex ↔
      ∃ c ∈ enhancedCandidates cfg judge? fuzzy cosine topic searchIndex,
        cfg.minMatchScore ≤
          calculateFinalScore cfg judge?.isSome c.traditionalScore c.aiScore ∧
        m = mkMatch filename topic topicIndex c
          (calculateFinalScore cfg judge?.isSome c.traditionalScore c.aiScore) := by
  unfold topicMatchList
  rw [List.mem_filterMap]
  constructor
  · rintro ⟨c, hc, heq⟩
    by_cases h : cfg.minMatchScore ≤
        calculateFinalScore cfg judge?.isSome c.traditionalScore c.aiScore
    · simp only [if_pos h] at heq
      exact ⟨c, hc, h, (Option.some_injective _ heq).symm⟩
    · simp only [if_neg h] at heq
      cases heq
  · rintro ⟨c, hc, h, heq⟩
    exact ⟨c, hc, by simp only [if_pos h, heq]⟩

/-- Membership in the concatenated (pre-sort) match list of `findBestMatches`. -/
theorem mem_batchesMatchList {cfg : SMConfig} {judge? : Option Judge}
    {fuzzy cosine : String → String → ℚ} {topics : List String}
    {searchIndex : List Element} {filename : String}
    {batches : List (List String)} {m : Match}
    (hm : m ∈ batchesMatchList cfg judge? fuzzy cosine topics searchIndex filename batches) :
    ∃ t, ∃ b ∈ batches, t ∈ b ∧
      m ∈ topicMatchList cfg judge? fuzzy cosine t searchIndex filename
        (topics.indexOf t) := by
  unfold batchesMatchList at hm
  obtain ⟨b, hb, hmb⟩ := List.mem_flatMap.mp hm
  obtain ⟨t, ht, hmt⟩ := List.mem_flatMap.mp hmb
  exact ⟨t, b, hb, ht, hmt⟩

/-! ## Sortedness of the emitted match list -/

theorem matchLe_trans : ∀ a b c : Match,
    matchLe a b = true → matchLe b c = true → matchLe a c = true := by
  intro a b c hab hbc
  simp only [matchLe, Bool.or_eq_true, Bool.and_eq_true, decide_eq_true_eq] at *
  rcases hab with h1 | ⟨h1, h1s⟩ <;> rcases hbc with h2 | ⟨h2, h2s⟩
  · exact Or.inl (Nat.lt_trans h1 h2)
  · exact Or.inl (h2 ▸ h1)
  · exact Or.inl (h1 ▸ h2)
  · exact Or.inr ⟨h1.trans h2, le_trans h2s h1s⟩

theorem matchLe_total : ∀ a b : Match, (matchLe a b || matchLe b a) = true := by
  intro a b
  simp only [matchLe, Bool.or_eq_true, Bool.and_eq_true, decide_eq_true_eq]
  rcases Nat.lt_trichotomy a.importance_rank b.importance_rank with h | h | h
  · exact Or.inl (Or.inl h)
  · rcases le_total b.match_score a.match_score with hs | hs
    · exact Or.inl (Or.inr ⟨h, hs⟩)
    · exact Or.inr (Or.inr ⟨h.symm, hs⟩)
  · exact Or.inr (Or.inl h)

/-- Sorting any match list with the source's comparator yields a list that is
pairwise ordered by rank, with descending score inside equal ranks. -/
theorem pairwise_matchRel_mergeSort (l : List Match) :
    (l.mergeSort matchLe).Pairwise matchRel := by
  have h := List.sorted_mergeSort matchLe_trans matchLe_total l
  refine h.imp ?_
  intro a b hab
  simp only [matchLe, Bool.or_eq_true, Bool.and_eq_true, decide_eq_true_eq] at hab
  exact hab

/-! ## Evaluation of the concrete fixtures -/

theorem tradScoreEval :
    calculateTraditionalScore constOne constOne defaultSMConfig "Alpha" "Sample Document Title"
      = 7/10 := by
  norm_num [calculateTraditionalScore, constOne, defaultSMConfig, mkSMConfig, noSMOptions,
    jsNumOr, String.length]
  decide

theorem candsEval :
    topicCandidates constOne constOne defaultSMConfig "Alpha" [titleElem] = [titleCand] := by
  simp only [topicCandidates, List.filterMap_cons, List.filterMap_nil, titleElem, titleCand]
  norm_num [tradScoreEval]

theorem enhancedNoneEval :
    enhancedCandidates defaultSMConfig none constOne constOne "Alpha" [titleElem]
      = [titleCand] := by
  simp only [enhancedCandidates, candsEval]
  simp [List.mergeSort]

theorem topicListNoneEval :
    topicMatchList defaultSMConfig none constOne constOne "Alpha" [titleElem] "doc.pdf" 0
      = [alphaMatch] := by
  simp only [topicMatchList, enhancedNoneEval, List.filterMap_cons, List.filterMap_nil]
  norm_num [calculateFinalScore, defaultSMConfig, mkSMConfig, noSMOptions, jsNumOr, titleCand,
    mkMatch, round3, truncateText, alphaMatch, titleElem, String.length]

theorem bestNoneEval :
    (findBestMatches defaultSMConfig none constOne constOne ["Alpha"] titleOnlyDS "doc.pdf"
      initialStats).1 = [alphaMatch] := by
  have hidx : smCreateSearchIndex titleOnlyDS = [titleElem] := rfl
  have hb : createBatches ["Alpha"] defaultSMConfig.maxConcurrentAIRequests = [["Alpha"]] := rfl
  simp only [findBestMatches, batchesMatchList, hidx, hb, List.flatMap_cons, List.flatMap_nil,
    List.append_nil, List.indexOf, List.findIdx, List.findIdx.go, topicListNoneEval]
  simp [List.mergeSort, topicListNoneEval]

theorem failJudgeEval :
    ollamaJudge failOracle parseZero "Alpha" "Sample Document Title" = Except.ok 0 := by
  simp only [ollamaJudge, getSemanticRelevance, executePrompt, executePromptGo, failOracle]
  norm_num [String.length]

theorem enhancedFailEval :
    enhancedCandidates defaultSMConfig (some (ollamaJudge failOracle parseZero)) constOne
      constOne "Alpha" [titleElem] = [titleCand] := by
  simp only [enhancedCandidates, candsEval]
  simp [List.mergeSort, applyJudge, failJudgeEval, titleCand, titleElem, defaultSMConfig,
    mkSMConfig, noSMOptions]

theorem topicListFailEval :
    topicMatchList defaultSMConfig (some (ollamaJudge failOracle parseZero)) constOne constOne
      "Alpha" [titleElem] "doc.pdf" 0 = [alphaMatch] := by
  simp only [topicMatchList, enhancedFailEval, List.filterMap_cons, List.filterMap_nil]
  norm_num [calculateFinalScore, defaultSMConfig, mkSMConfig, noSMOptions, jsNumOr, titleCand,
    mkMatch, round3, truncateText, alphaMatch, titleElem, String.length]

theorem dcfgAI : defaultSMConfig.aiEnhancedMode = true := rfl

theorem cands1Sort : [titleCand].mergeSort candidateLe = [titleCand] := by
  simp [List.mergeSort]

theorem judgeStatsEval : ∀ acc : SMStats,
    judgeStatsList (ollamaJudge failOracle parseZero) "Alpha" [titleCand] acc
      = { acc with aiEnhancedMatches := acc.aiEnhancedMatches + 1 } := by
  intro acc
  have htext : titleCand.element.text = "Sample Document Title" := rfl
  simp only [judgeStatsList, judgeStatsOne, htext, failJudgeEval]

theorem statsFailEval :
    (findBestMatches defaultSMConfig (some (ollamaJudge failOracle parseZero)) constOne constOne
      ["Alpha"] titleOnlyDS "doc.pdf" initialStats).2 = ⟨1, 1, 0, 0⟩ := by
  have hidx : smCreateSearchIndex titleOnlyDS = [titleElem] := rfl
  have hb : createBatches ["Alpha"] defaultSMConfig.maxConcurrentAIRequests = [["Alpha"]] := rfl
  simp only [findBestMatches, batchesStats, hidx, hb, List.foldl_cons, List.foldl_nil,
    List.indexOf, List.findIdx, List.findIdx.go]
  have htake : List.take defaultSMConfig.maxConcurrentAIRequests ["Alpha"] = ["Alpha"] := rfl
  simp only [htake, List.foldl_cons, List.foldl_nil, beq_self_eq_true, cond_true]
  simp only [topicStats, candsEval]
  simp only [dcfgAI, cands1Sort]
  simp only [topicListFailEval, List.take, judgeStatsEval, initialStats]
  norm_num

theorem matchesFailEval :
    (findBestMatches defaultSMConfig (some (ollamaJudge failOracle parseZero)) constOne constOne
      ["Alpha"] titleOnlyDS "doc.pdf" initialStats).1 = [alphaMatch] := by
  have hidx : smCreateSearchIndex titleOnlyDS = [titleElem] := rfl
  have hb : createBatches ["Alpha"] defaultSMConfig.maxConcurrentAIRequests = [["Alpha"]] := rfl
  simp only [findBestMatches, batchesMatchList, hidx, hb, List.flatMap_cons, List.flatMap_nil,
    List.append_nil, List.indexOf, List.findIdx, List.findIdx.go, topicListFailEval]
  simp [List.mergeSort, topicListFailEval]

theorem dupPosEval :
    processTopicAt defaultSMConfig none constOne constOne ["Alpha", "Alpha"] titleOnlyDS
      "doc.pdf" 1 = [alphaMatch] := by
  have hidx : smCreateSearchIndex titleOnlyDS = [titleElem] := rfl
  simp only [processTopicAt, hidx, List.getD, List.indexOf, List.findIdx, List.findIdx.go]
  simp [topicListNoneEval]

theorem introSortEval : [dIntro, dText].mergeSort detectionLe = [dIntro, dText] := by
  have h : detectionLe dIntro dText = true := by
    norm_num [detectionLe, dIntro, dText]
  simp [List.mergeSort, h]

theorem cleanIntro : cleanText "Introduction" = "Introduction" := rfl

theorem cleanContent : cleanText "Some interesting content." = "Some interesting content." := rfl

theorem wordsContent : (jsSplitRuns jsWs "Some interesting content.").length = 3 := rfl

theorem failIntro : isFailureText "Introduction" = false := rfl

theorem failContent : isFailureText "Some interesting content." = false := rfl

theorem stepIntroEval :
    detectionStep defaultDAConfig 1
      { title := none, sections := [], current := none, meta := ⟨0, 0, 0, 0⟩, allText := "" }
      dIntro =
      { title := none, sections := [], current := some openSec,
        meta := ⟨1, 0, 1, 0⟩, allText := "Introduction\n" } := by
  simp only [detectionStep, structStep, bumpMeta, dIntro, openSec]
  simp [cleanIntro, failIntro, jsStrTruthy, String.length, defaultDAConfig, mkDAConfig,
    noDAOptions, jsNumOr, jsNatOr]
  norm_num [BuildState.mk.injEq, Section.mk.injEq, StructMeta.mk.injEq]
  decide

theorem stepTextEval :
    detectionStep defaultDAConfig 1
      { title := none, sections := [], current := some openSec,
        meta := ⟨1, 0, 1, 0⟩, allText := "Introduction\n" } dText = stateAfterBoth := by
  simp only [detectionStep, structStep, bumpMeta, dText, openSec, stateAfterBoth, introSection0]
  simp [cleanContent, failContent, wordsContent, jsStrTruthy, String.length, defaultDAConfig,
    mkDAConfig, noDAOptions, jsNumOr, jsNatOr]
  norm_num [BuildState.mk.injEq, Section.mk.injEq, StructMeta.mk.injEq, ContentItem.mk.injEq,
    introItem]

theorem keepIntroSection : keepSection introSection0 = true := rfl

theorem sortIntroSection : [introSection0].mergeSort sectionLe = [introSection0] := by
  simp [List.mergeSort]

theorem introSectionsEval :
    (createDocumentStructure defaultDAConfig [introPage]).«structure».sections
      = [introSection] := by
  have hpage : introPage.detections = [dIntro, dText] := rfl
  have hpn : introPage.pageNumber = 1 := rfl
  simp only [createDocumentStructure, processPage, List.foldl_cons, List.foldl_nil, hpage,
    hpn, introSortEval, stepIntroEval, stepTextEval]
  simp only [stateAfterBoth, postProcessStructure]
  have hcc : introSection0.content = [introItem] := rfl
  simp only [hcc, List.nil_append, ne_eq, reduceCtorEq, not_false_eq_true, if_true,
    List.cons_ne_self, List.filter_cons, List.filter_nil, keepIntroSection, sortIntroSection,
    assignIndices]
  norm_num [introSection, introSection0, Section.mk.injEq]

/-! ## The claims -/

/-- Bounds for every candidate the final loop sees when the judge is the
deployed Ollama one (or absent) and both similarity signals stay in `[0, 1]`:
the traditional score lies in `(0, fuzzyWeight + cosineWeight]` and the AI
score in `[0, 1]`. -/
theorem enhanced_candidate_bounds {oracle : String → String → List (Except String String)}
    {parse : String → ℚ} {hasJudge : Bool} {fuzzy cosine : String → String → ℚ}
    (hf : ∀ t x, 0 ≤ fuzzy t x ∧ fuzzy t x ≤ 1)
    (hg : ∀ t x, 0 ≤ cosine t x ∧ cosine t x ≤ 1)
    {topic : String} {searchIndex : List Element} {c : Candidate}
    (hc : c ∈ enhancedCandidates defaultSMConfig
      (if hasJudge then some (ollamaJudge oracle parse) else none)
      fuzzy cosine topic searchIndex) :
    (0 ≤ c.traditionalScore ∧ c.traditionalScore ≤ 7/10) ∧
      (0 ≤ c.aiScore ∧ c.aiScore ≤ 1) := by
  obtain ⟨c0, hc0, hcase⟩ := mem_enhancedCandidates hc
  obtain ⟨e, _, hpos, hc0eq⟩ := mem_topicCandidates hc0
  have hfw : defaultSMConfig.fuzzyWeight = 3/10 := rfl
  have hcw : defaultSMConfig.cosineWeight = 4/10 := rfl
  have hbounds := calculateTraditionalScore_bounds hf hg
    (by rw [hfw]; norm_num) (by rw [hcw]; norm_num) topic e.text
  rw [hfw, hcw] at hbounds
  have ht : 0 ≤ c0.traditionalScore ∧ c0.traditionalScore ≤ 7/10 := by
    rw [hc0eq]
    exact ⟨hbounds.1, by linarith [hbounds.2]⟩
  have ha0 : c0.aiScore = 0 := by rw [hc0eq]
  rcases hcase with rfl | ⟨judge, hj, rfl⟩
  · exact ⟨ht, by rw [ha0]; norm_num⟩
  · have hjudge : judge = ollamaJudge oracle parse := by
      cases hasJudge with
      | false => simp at hj
      | true => simpa using hj.symm
    subst hjudge
    unfold applyJudge ollamaJudge
    refine ⟨ht, ?_⟩
    exact getSemanticRelevance_mem_unit parse (oracle topic c0.element.text) c0.element.text

/-- C1: in every match emitted by `findBestMatches` under the default weights,
with the deployed Ollama judge (or none) and similarity functions valued in
`[0, 1]`, the fields `match_score`, `traditional_score` and `ai_score` all lie
in `[0, 1]`. -/
theorem c1_match_fields_in_unit_interval
    (oracle : String → String → List (Except String String)) (parse : String → ℚ)
    (hasJudge : Bool) (fuzzy cosine : String → String → ℚ)
    (hf : ∀ t x, 0 ≤ fuzzy t x ∧ fuzzy t x ≤ 1)
    (hg : ∀ t x, 0 ≤ cosine t x ∧ cosine t x ≤ 1)
    (topics : List String) (ds : DocumentStructure) (filename : String) (st : SMStats)
    (m : Match)
    (hm : m ∈ (findBestMatches defaultSMConfig
      (if hasJudge then some (ollamaJudge oracle parse) else none)
      fuzzy cosine topics ds filename st).1) :
    (0 ≤ m.match_score ∧ m.match_score ≤ 1) ∧
      (0 ≤ m.traditional_score ∧ m.traditional_score ≤ 1) ∧
      (0 ≤ m.ai_score ∧ m.ai_score ≤ 1) := by
  unfold findBestMatches at hm
  rw [List.mem_mergeSort] at hm
  obtain ⟨t, b, _, _, hmt⟩ := mem_batchesMatchList hm
  obtain ⟨c, hc, _, hmeq⟩ := mem_topicMatchList.mp hmt
  obtain ⟨⟨ht0, ht1⟩, ha0, ha1⟩ := enhanced_candidate_bounds hf hg hc
  obtain ⟨hfs0, hfs1⟩ := calculateFinalScore_default_bounds
    (if hasJudge then some (ollamaJudge oracle parse) else none).isSome ht0 ht1 ha0 ha1
  subst hmeq
  unfold mkMatch
  refine ⟨⟨round3_nonneg hfs0, round3_le_one hfs1⟩,
    ⟨round3_nonneg ht0, round3_le_one (by linarith)⟩,
    ⟨round3_nonneg ha0, round3_le_one ha1⟩⟩

/-- Witness for C1: a concrete no-judge run whose single match has all three
score fields in `[0, 1]`. -/
theorem c1_witness :
    (0 ≤ alphaMatch.match_score ∧ alphaMatch.match_score ≤ 1) ∧
      (0 ≤ alphaMatch.traditional_score ∧ alphaMatch.traditional_score ≤ 1) ∧
      (0 ≤ alphaMatch.ai_score ∧ alphaMatch.ai_score ≤ 1) :=
  c1_match_fields_in_unit_interval failOracle parseZero false constOne constOne
    (fun _ _ => by norm_num [constOne]) (fun _ _ => by norm_num [constOne])
    ["Alpha"] titleOnlyDS "doc.pdf" initialStats alphaMatch
    (by rw [if_neg (by norm_num), bestNoneEval]; exact List.mem_cons_self alphaMatch [])

/-- C2: both the per-document match list of `findBestMatches` and the
cross-document list of `performSemanticMatching` are sorted by non-decreasing
importance rank, with non-increasing match score inside equal ranks. -/
theorem c2_match_lists_sorted
    (cfg : SMConfig) (judge? : Option Judge) (fuzzy cosine : String → String → ℚ)
    (topics : List String) (ds : DocumentStructure) (filename : String) (st : SMStats)
    (analyses : List (String × DocumentStructure)) :
    ((findBestMatches cfg judge? fuzzy cosine topics ds filename st).1.Pairwise matchRel) ∧
      ((performSemanticMatching cfg judge? fuzzy cosine topics analyses).Pairwise matchRel) := by
  constructor
  · unfold findBestMatches
    exact pairwise_matchRel_mergeSort _
  · unfold performSemanticMatching
    exact pairwise_matchRel_mergeSort _

/-- C3: with the default configuration, `_findTopicMatches` emits exactly the
candidates whose final blended score reaches `minMatchScore = 1/10` (every
candidate of the topic is considered, not only the judge-eligible top five),
and every emitted match records a `match_score` of at least `1/10`. -/
theorem c3_min_score_filter
    (judge? : Option Judge) (fuzzy cosine : String → String → ℚ)
    (topic : String) (searchIndex : List Element) (filename : String) (topicIndex : ℕ) :
    (topicMatchList defaultSMConfig judge? fuzzy cosine topic searchIndex filename topicIndex
      = ((enhancedCandidates defaultSMConfig judge? fuzzy cosine topic searchIndex).filter
          (fun c => decide ((1:ℚ)/10 ≤
            calculateFinalScore defaultSMConfig judge?.isSome c.traditionalScore c.aiScore))).map
          (fun c => mkMatch filename topic topicIndex c
            (calculateFinalScore defaultSMConfig judge?.isSome c.traditionalScore c.aiScore))) ∧
    (∀ m ∈ topicMatchList defaultSMConfig judge? fuzzy cosine topic searchIndex filename
        topicIndex, (1:ℚ)/10 ≤ m.match_score) := by
  have hmin : defaultSMConfig.minMatchScore = 1/10 := rfl
  constructor
  · unfold topicMatchList
    rw [hmin]
    exact filterMap_guard_eq_filter_map _ _ _
  · intro m hm
    obtain ⟨c, _, hsc, hmeq⟩ := mem_topicMatchList.mp hm
    rw [hmin] at hsc
    subst hmeq
    show (1:ℚ)/10 ≤ round3 _
    calc (1:ℚ)/10 = round3 (1/10) := round3_tenth.symm
      _ ≤ _ := round3_mono hsc

/-- Witness for C3: in a concrete no-judge run the emitted match records a
score of at least `1/10`. -/
theorem c3_witness : (1:ℚ)/10 ≤ alphaMatch.match_score :=
  (c3_min_score_filter none constOne constOne "Alpha" [titleElem] "doc.pdf" 0).2
    alphaMatch (by rw [topicListNoneEval]; exact List.mem_cons_self alphaMatch [])

/-- C4: with AI mode on (its default), the final score is the normalized
traditional score `t / (fuzzyWeight + cosineWeight)` exactly when no judge is
configured or the AI score is 0, and the blend
`normalized * (1 - aiWeight) + a * aiWeight` otherwise; the no-judge result
does not depend on `aiWeight`. -/
theorem c4_final_score_formula
    (cfg : SMConfig) (hAI : cfg.aiEnhancedMode = true) (hasJudge : Bool) (t a : ℚ) :
    (calculateFinalScore cfg hasJudge t a =
      if hasJudge = false ∨ a = 0 then t / (cfg.fuzzyWeight + cfg.cosineWeight)
      else t / (cfg.fuzzyWeight + cfg.cosineWeight) * (1 - cfg.aiWeight) + a * cfg.aiWeight) ∧
    (∀ cfg' : SMConfig, cfg'.aiEnhancedMode = true → cfg'.fuzzyWeight = cfg.fuzzyWeight →
      cfg'.cosineWeight = cfg.cosineWeight → hasJudge = false →
      calculateFinalScore cfg' hasJudge t a = calculateFinalScore cfg hasJudge t a) := by
  constructor
  · unfold calculateFinalScore
    rw [hAI]
    by_cases hj : hasJudge = false
    · rw [if_pos (Or.inl hj), if_pos (Or.inl hj)]
    · by_cases ha : a = 0
      · rw [if_pos (Or.inr (Or.inr ha)), if_pos (Or.inr ha)]
      · rw [if_neg (by simp [hj, ha]), if_neg (by simp [hj, ha])]
  · intro cfg' hAI' hfw hcw hj
    unfold calculateFinalScore
    rw [hAI, hAI', hfw, hcw, hj]
    simp

/-- Witness for C4: with no judge, changing `aiWeight` from the default `3/10`
to `9/10` leaves the final score unchanged. -/
theorem c4_witness :
    calculateFinalScore { defaultSMConfig with aiWeight := 9/10 } false (7/10) (1/2)
      = calculateFinalScore defaultSMConfig false (7/10) (1/2) :=
  (c4_final_score_formula defaultSMConfig rfl false (7/10) (1/2)).2
    { defaultSMConfig with aiWeight := 9/10 } rfl rfl rfl rfl

/-- Index assignment only rewrites the `index` field. -/
theorem mem_assignIndices : ∀ (k : ℕ) (l : List Section) (s : Section),
    s ∈ assignIndices k l → ∃ s' ∈ l, s.content = s'.content ∧ s.title = s'.title := by
  intro k l
  induction l generalizing k with
  | nil => intro s hs; cases hs
  | cons a rest ih =>
    intro s hs
    rcases List.mem_cons.mp hs with rfl | hs
    · exact ⟨a, List.mem_cons_self a rest, rfl, rfl⟩
    · obtain ⟨s', hs', h1, h2⟩ := ih (k + 1) s hs
      exact ⟨s', List.mem_cons_of_mem a hs', h1, h2⟩

/-- The section list of a post-processed structure, unfolded. -/
theorem postProcess_sections (ds : DocumentStructure) :
    (postProcessStructure ds).sections =
      assignIndices 1 ((ds.sections.filter keepSection).mergeSort sectionLe) := rfl

/-- C5: every section of the structure returned by `createDocumentStructure`
has content or a title longer than 3 characters (the post-processing filter
guarantees it on any input). -/
theorem c5_retained_sections (cfg : DAConfig) (pageResults : List PageResult)
    (s : Section)
    (hs : s ∈ (createDocumentStructure cfg pageResults).«structure».sections) :
    s.content ≠ [] ∨ 3 < s.title.length := by
  unfold createDocumentStructure at hs
  dsimp only at hs
  rw [postProcess_sections] at hs
  obtain ⟨s', hs', hcontent, htitle⟩ := mem_assignIndices 1 _ s hs
  rw [List.mem_mergeSort] at hs'
  have hkeep := (List.mem_filter.mp hs').2
  unfold keepSection at hkeep
  rw [Bool.or_eq_true, decide_eq_true_eq, decide_eq_true_eq] at hkeep
  rcases hkeep with h | h
  · exact Or.inl (by
      rw [hcontent]
      intro hnil
      rw [hnil] at h
      simp at h)
  · exact Or.inr (htitle ▸ h)

/-- Witness for C5: the section the analyzer builds from a concrete page
satisfies the invariant. -/
theorem c5_witness : introSection.content ≠ [] ∨ 3 < introSection.title.length :=
  c5_retained_sections defaultDAConfig [introPage] introSection
    (by rw [introSectionsEval]; exact List.mem_cons_self introSection [])

/-- C6 counterexample: on a structure holding one List-item of 11 characters,
the matcher's index and the analyzer's persisted index disagree (type
`"list_item"` with importance `1/2` versus type `"list-item"` with importance
`2/5`), so the two indexes are not equal position by position. -/
theorem c6_counterexample :
    (smCreateSearchIndex listItemDS).map elemView ≠
      (daCreateSearchIndex listItemDS).map entryView := by
  have h1 : (smCreateSearchIndex listItemDS).map elemView =
      [("section-header", "Items", 1, some 1, 8/10),
       ("list_item", "abcdefghijk", 1, some 1, 5/10)] := rfl
  have h2 : (daCreateSearchIndex listItemDS).map entryView =
      [("section-header", "Items", 1, some 1, 8/10),
       ("list-item", "abcdefghijk", 1, some 1, 4/10)] := rfl
  rw [h1, h2]
  simp

/-- The content entries of one section agree across the two indexes when
every item is a Text or Caption with more than 10 characters. -/
theorem c6_content_entries_eq (secIndex : ℕ) : ∀ cs : List ContentItem,
    (∀ c ∈ cs, (c.type = "Text" ∨ c.type = "Caption") ∧ 10 < c.text.length) →
    (cs.filterMap (fun c =>
      if c.text ≠ "" ∧ 10 < c.text.length then
        some ({ type := replaceFirstHyphen (jsToLower c.type), text := c.text,
                page := c.page, «section» := some secIndex,
                importance := getContentImportance c.type, bbox := c.bbox } : Element)
      else none)).map elemView =
    (cs.map (fun c =>
      ({ type := jsToLower c.type, text := c.text, page := c.page,
         «section» := some secIndex,
         importance := if c.type = "Text" then 6/10 else 4/10 } : SearchEntry))).map
      entryView := by
  intro cs
  induction cs with
  | nil => intro _; rfl
  | cons c rest ih =>
    intro h
    obtain ⟨hty, hlen⟩ := h c (List.mem_cons_self c rest)
    have hne : c.text ≠ "" := by
      intro hempty
      rw [hempty] at hlen
      simp [String.length] at hlen
    rw [List.filterMap_cons, if_pos ⟨hne, hlen⟩, List.map_cons, List.map_cons, List.map_cons]
    congr 1
    · rcases hty with hty | hty <;>
        simp [elemView, entryView, hty, jsToLower, replaceFirstHyphen, replaceFirstHyphenGo,
          getContentImportance]
    · exact ih (fun c' hc' => h c' (List.mem_cons_of_mem c hc'))

/-- C6 (amended): the two search indexes agree position by position on type,
text, page, section and importance whenever every content item has type
`"Text"` or `"Caption"` and text longer than 10 characters; in general they
differ on List-item entries and on content with text of at most 10
characters. -/
theorem c6_amended_index_agreement (ds : DocumentStructure)
    (h : ∀ sec ∈ ds.sections, ∀ c ∈ sec.content,
      (c.type = "Text" ∨ c.type = "Caption") ∧ 10 < c.text.length) :
    (smCreateSearchIndex ds).map elemView = (daCreateSearchIndex ds).map entryView := by
  unfold smCreateSearchIndex daCreateSearchIndex
  rw [List.map_append, List.map_append]
  congr 1
  · split <;> rfl
  · revert h
    induction ds.sections with
    | nil => intro _; rfl
    | cons sec rest ih =>
      intro h
      rw [List.flatMap_cons, List.flatMap_cons, List.map_append, List.map_append]
      congr 1
      · rw [List.map_cons, List.map_cons]
        congr 1
        exact c6_content_entries_eq sec.index sec.content
          (h sec (List.mem_cons_self sec rest))
      · exact ih (fun s hs => h s (List.mem_cons_of_mem sec hs))

/-- Witness for C6 (amended): a concrete structure with one Text content item of
more than 10 characters on which the two indexes agree. -/
theorem c6_witness :
    (smCreateSearchIndex textOnlyDS).map elemView =
      (daCreateSearchIndex textOnlyDS).map entryView :=
  c6_amended_index_agreement textOnlyDS (by
    intro sec hsec c hc
    simp only [textOnlyDS] at hsec
    rcases List.mem_cons.mp hsec with rfl | hsec
    · rcases List.mem_cons.mp hc with rfl | hc
      · exact ⟨Or.inl rfl, by decide⟩
      · cases hc
    · cases hsec)

/-- C7 counterexample: with the duplicated topic list `["Alpha", "Alpha"]`,
the call `findBestMatches` performs for 0-based position 1 (1-based position
2) emits a match whose `importance_rank` is 1, not 2: `topics.indexOf` finds
the first occurrence of the repeated string. -/
theorem c7_counterexample :
    ((processTopicAt defaultSMConfig none constOne constOne ["Alpha", "Alpha"] titleOnlyDS
        "doc.pdf" 1).map Match.importance_rank = [1]) ∧ (1 : ℕ) ≠ 2 := by
  constructor
  · rw [dupPosEval]; rfl
  · decide

/-- C7 (amended): every match emitted by `findBestMatches` carries
`importance_rank` equal to one plus the position of the FIRST occurrence of
its topic in the input topic list (which is the topic's own 1-based position
whenever the list has no repeated topic string), independent of any score. -/
theorem c7_amended_rank_is_first_occurrence
    (cfg : SMConfig) (judge? : Option Judge) (fuzzy cosine : String → String → ℚ)
    (topics : List String) (ds : DocumentStructure) (filename : String) (st : SMStats)
    (m : Match)
    (hm : m ∈ (findBestMatches cfg judge? fuzzy cosine topics ds filename st).1) :
    m.importance_rank = topics.indexOf m.topic + 1 := by
  unfold findBestMatches at hm
  rw [List.mem_mergeSort] at hm
  obtain ⟨t, b, _, _, hmt⟩ := mem_batchesMatchList hm
  obtain ⟨c, _, _, hmeq⟩ := mem_topicMatchList.mp hmt
  subst hmeq
  rfl

/-- Witness for C7 (amended): the concrete emitted match has rank
`indexOf topic + 1`. -/
theorem c7_witness :
    alphaMatch.importance_rank = List.indexOf alphaMatch.topic ["Alpha"] + 1 :=
  c7_amended_rank_is_first_occurrence defaultSMConfig none constOne constOne ["Alpha"]
    titleOnlyDS "doc.pdf" initialStats alphaMatch
    (by rw [bestNoneEval]; exact List.mem_cons_self alphaMatch [])

/-- `judgeStatsList` never touches `failedAIMatches` when the judge always
returns `ok` (as the deployed Ollama judge does). -/
theorem judgeStatsList_failedAI (judge : Judge) (topic : String)
    (hok : ∀ t x, ∃ s, judge t x = Except.ok s) :
    ∀ (cs : List Candidate) (st : SMStats),
      (judgeStatsList judge topic cs st).failedAIMatches = st.failedAIMatches := by
  intro cs
  induction cs with
  | nil => intro st; rfl
  | cons c rest ih =>
    intro st
    unfold judgeStatsList judgeStatsOne
    obtain ⟨s, hs⟩ := hok topic c.element.text
    rw [hs, ih]

/-- `topicStats` never touches `failedAIMatches` for an always-`ok` judge. -/
theorem topicStats_failedAI (cfg : SMConfig) (judge : Judge)
    (fuzzy cosine : String → String → ℚ) (topic : String)
    (searchIndex : List Element) (filename : String) (topicIndex : ℕ) (st : SMStats)
    (hok : ∀ t x, ∃ s, judge t x = Except.ok s) :
    (topicStats cfg (some judge) fuzzy cosine topic searchIndex filename topicIndex
        st).failedAIMatches = st.failedAIMatches := by
  unfold topicStats
  dsimp only
  split
  · split
    · rw [judgeStatsList_failedAI judge topic hok]
    · rfl
  · split
    · rw [judgeStatsList_failedAI judge topic hok]
    · rfl

/-- `batchesStats` never touches `failedAIMatches` for an always-`ok` judge. -/
theorem batchesStats_failedAI (cfg : SMConfig) (judge : Judge)
    (fuzzy cosine : String → String → ℚ) (topics : List String)
    (searchIndex : List Element) (filename : String)
    (hok : ∀ t x, ∃ s, judge t x = Except.ok s) :
    ∀ (batches : List (List String)) (st : SMStats),
      (batchesStats cfg (some judge) fuzzy cosine topics searchIndex filename batches
          st).failedAIMatches = st.failedAIMatches := by
  intro batches
  induction batches with
  | nil => intro st; rfl
  | cons b rest ih =>
    intro st
    unfold batchesStats
    rw [ih]
    clear ih
    induction b generalizing st with
    | nil => rfl
    | cons t ts iht =>
      rw [List.foldl_cons, iht]
      rw [topicStats_failedAI cfg judge fuzzy cosine t searchIndex filename _ st hok]

/-- The AI score of every candidate the final loop sees is `0` when the judge
is the Ollama one over an all-failing oracle. -/
theorem enhanced_aiScore_zero_all_errors
    {oracle : String → String → List (Except String String)} {parse : String → ℚ}
    (hfail : ∀ t x, ∀ r ∈ oracle t x, ∃ e, r = Except.error e)
    {cfg : SMConfig} {fuzzy cosine : String → String → ℚ} {topic : String}
    {searchIndex : List Element} {c : Candidate}
    (hc : c ∈ enhancedCandidates cfg (some (ollamaJudge oracle parse)) fuzzy cosine topic
      searchIndex) :
    c.aiScore = 0 := by
  obtain ⟨c0, hc0, hcase⟩ := mem_enhancedCandidates hc
  obtain ⟨e, _, _, hc0eq⟩ := mem_topicCandidates hc0
  have ha0 : c0.aiScore = 0 := by rw [hc0eq]
  rcases hcase with rfl | ⟨judge, hj, rfl⟩
  · exact ha0
  · have hjudge : judge = ollamaJudge oracle parse := by simpa using hj.symm
    subst hjudge
    unfold applyJudge ollamaJudge
    rw [getSemanticRelevance_all_errors parse _ _ (hfail topic c0.element.text)]

/-- C8 (amended): when every spawn attempt of every judge call fails, the
handler's `getSemanticRelevance` catches the failure and returns 0, so the
judge call itself always resolves with `ok`, every emitted match has
`ai_score = 0`, and `findBestMatches` returns normally — but the matcher's
`failedAIMatches` counter is NOT incremented (the failure never reaches the
matcher's catch block; `aiEnhancedMatches` is incremented instead). -/
theorem c8_amended_failure_swallowed
    (oracle : String → String → List (Except String String)) (parse : String → ℚ)
    (fuzzy cosine : String → String → ℚ) (topics : List String)
    (ds : DocumentStructure) (filename : String) (st : SMStats)
    (hfail : ∀ t x, ∀ r ∈ oracle t x, ∃ e, r = Except.error e) :
    (∀ t x, ∃ s, ollamaJudge oracle parse t x = Except.ok s) ∧
    (∀ m ∈ (findBestMatches defaultSMConfig (some (ollamaJudge oracle parse)) fuzzy cosine
        topics ds filename st).1, m.ai_score = 0) ∧
    ((findBestMatches defaultSMConfig (some (ollamaJudge oracle parse)) fuzzy cosine topics
        ds filename st).2.failedAIMatches = st.failedAIMatches) := by
  refine ⟨fun t x => ollamaJudge_total oracle parse t x, ?_, ?_⟩
  · intro m hm
    unfold findBestMatches at hm
    rw [List.mem_mergeSort] at hm
    obtain ⟨t, b, _, _, hmt⟩ := mem_batchesMatchList hm
    obtain ⟨c, hc, _, hmeq⟩ := mem_topicMatchList.mp hmt
    subst hmeq
    show round3 c.aiScore = 0
    rw [enhanced_aiScore_zero_all_errors hfail hc, round3_zero]
  · unfold findBestMatches
    exact batchesStats_failedAI defaultSMConfig (ollamaJudge oracle parse) fuzzy cosine
      topics _ filename (fun t x => ollamaJudge_total oracle parse t x) _ st

/-- Every attempt of the all-failing oracle is an error. -/
theorem failOracle_all_errors : ∀ t x : String, ∀ r ∈ failOracle t x, ∃ e, r = Except.error e := by
  intro t x r hr
  simp only [failOracle] at hr
  rcases List.mem_cons.mp hr with rfl | hr
  · exact ⟨_, rfl⟩
  · rcases List.mem_cons.mp hr with rfl | hr
    · exact ⟨_, rfl⟩
    · rcases List.mem_cons.mp hr with rfl | hr
      · exact ⟨_, rfl⟩
      · cases hr

/-- C8 counterexample: a concrete run in which every judge spawn attempt
fails, one candidate is judged, and the run completes with its match carrying
`ai_score = 0` — yet `failedAIMatches` stays 0 (`aiEnhancedMatches` was
incremented instead), contradicting the claim that `failedAIMatches` is
incremented. -/
theorem c8_counterexample :
    (∀ t x, ∀ r ∈ failOracle t x, ∃ e, r = Except.error e) ∧
    ((findBestMatches defaultSMConfig (some (ollamaJudge failOracle parseZero)) constOne
        constOne ["Alpha"] titleOnlyDS "doc.pdf" initialStats).1.map Match.ai_score = [0]) ∧
    ((findBestMatches defaultSMConfig (some (ollamaJudge failOracle parseZero)) constOne
        constOne ["Alpha"] titleOnlyDS "doc.pdf" initialStats).2.failedAIMatches = 0) ∧
    ((findBestMatches defaultSMConfig (some (ollamaJudge failOracle parseZero)) constOne
        constOne ["Alpha"] titleOnlyDS "doc.pdf" initialStats).2.aiEnhancedMatches = 1) := by
  refine ⟨failOracle_all_errors, ?_, ?_, ?_⟩
  · rw [matchesFailEval]; rfl
  · rw [statsFailEval]
  · rw [statsFailEval]

/-- Witness for C8 (amended): in the concrete all-failing run, the
`failedAIMatches` counter is unchanged. -/
theorem c8_witness :
    (findBestMatches defaultSMConfig (some (ollamaJudge failOracle parseZero)) constOne
        constOne ["Alpha"] titleOnlyDS "doc.pdf" initialStats).2.failedAIMatches
      = initialStats.failedAIMatches :=
  (c8_amended_failure_swallowed failOracle parseZero constOne constOne ["Alpha"] titleOnlyDS
    "doc.pdf" initialStats failOracle_all_errors).2.2

/-! ## Batching lemmas -/

theorem createBatchesGo_nil (w fuel : ℕ) : createBatchesGo w fuel [] = [] := by
  cases fuel <;> rfl

theorem createBatchesGo_flatten (w : ℕ) (hw : 0 < w) :
    ∀ (fuel : ℕ) (l : List String), l.length ≤ fuel →
      (createBatchesGo w fuel l).flatten = l := by
  intro fuel
  induction fuel with
  | zero =>
    intro l hl
    have : l = [] := List.eq_nil_of_length_eq_zero (Nat.le_zero.mp hl)
    subst this
    rfl
  | succ k ih =>
    intro l hl
    cases l with
    | nil => rfl
    | cons a rest =>
      show (List.take w (a :: rest) :: createBatchesGo w k (List.drop w (a :: rest))).flatten
        = a :: rest
      rw [List.flatten_cons, ih (List.drop w (a :: rest)) (by
        simp only [List.length_drop, List.length_cons]
        simp only [List.length_cons] at hl
        omega)]
      exact List.take_append_drop w (a :: rest)

theorem createBatchesGo_length (w : ℕ) (hw : 0 < w) :
    ∀ (fuel : ℕ) (l : List String), l.length ≤ fuel →
      (createBatchesGo w fuel l).length = (l.length + w - 1) / w := by
  intro fuel
  induction fuel with
  | zero =>
    intro l hl
    have : l = [] := List.eq_nil_of_length_eq_zero (Nat.le_zero.mp hl)
    subst this
    show (0 : ℕ) = (0 + w - 1) / w
    rw [Nat.zero_add, Nat.div_eq_of_lt (by omega)]
  | succ k ih =>
    intro l hl
    cases l with
    | nil =>
      show (0 : ℕ) = (0 + w - 1) / w
      rw [Nat.zero_add, Nat.div_eq_of_lt (by omega)]
    | cons a rest =>
      show (List.take w (a :: rest) :: createBatchesGo w k (List.drop w (a :: rest))).length
        = ((a :: rest).length + w - 1) / w
      rw [List.length_cons, ih (List.drop w (a :: rest)) (by
        simp only [List.length_drop, List.length_cons]
        simp only [List.length_cons] at hl
        omega)]
      rw [List.length_drop]
      set n := (a :: rest).length with hn
      have hn1 : 1 ≤ n := by rw [hn]; simp
      by_cases hcase : n ≤ w
      · have h1 : n - w = 0 := by omega
        rw [h1]
        rw [Nat.div_eq_of_lt (by omega)]
        have h2 : (n + w - 1) / w = 1 := by
          apply Nat.div_eq_of_lt_le
          · omega
          · omega
        omega
      · have h1 : n - w + w - 1 = n - 1 := by omega
        have h2 : n + w - 1 = (n - 1) + w := by omega
        rw [h1, h2, Nat.add_div_right _ hw]

theorem createBatchesGo_mem_sizes (w : ℕ) (hw : 0 < w) :
    ∀ (fuel : ℕ) (l : List String) (b : List String),
      b ∈ createBatchesGo w fuel l → b ≠ [] ∧ b.length ≤ w := by
  intro fuel
  induction fuel with
  | zero =>
    intro l b hb
    rw [show createBatchesGo w 0 l = [] from by cases l <;> rfl] at hb
    cases hb
  | succ k ih =>
    intro l b hb
    cases l with
    | nil => cases hb
    | cons a rest =>
      rcases List.mem_cons.mp hb with rfl | hb
      · constructor
        · cases w with
          | zero => omega
          | succ j => simp [List.take]
        · rw [List.length_take]
          omega
      · exact ih (List.drop w (a :: rest)) b hb

theorem createBatchesGo_inner_sizes (w : ℕ) (hw : 0 < w) :
    ∀ (fuel : ℕ) (l : List String) (i : ℕ), l.length ≤ fuel →
      i + 1 < (createBatchesGo w fuel l).length →
      ((createBatchesGo w fuel l).getD i []).length = w := by
  intro fuel
  induction fuel with
  | zero =>
    intro l i _ hi
    rw [show createBatchesGo w 0 l = [] from by cases l <;> rfl] at hi
    simp at hi
  | succ k ih =>
    intro l i hl hi
    cases l with
    | nil =>
      rw [createBatchesGo_nil] at hi
      simp at hi
    | cons a rest =>
      have hgo : createBatchesGo w (k + 1) (a :: rest)
          = List.take w (a :: rest) :: createBatchesGo w k (List.drop w (a :: rest)) := rfl
      rw [hgo] at hi ⊢
      cases i with
      | zero =>
        rw [List.length_cons] at hi
        have hrest : createBatchesGo w k (List.drop w (a :: rest)) ≠ [] := by
          intro hnil
          rw [hnil] at hi
          simp at hi
        have hdrop : List.drop w (a :: rest) ≠ [] := by
          intro hnil
          rw [hnil, createBatchesGo_nil] at hrest
          exact hrest rfl
        have hlen : w < (a :: rest).length := by
          by_contra hle
          push_neg at hle
          exact hdrop (List.drop_eq_nil_of_le hle)
        show (List.take w (a :: rest)).length = w
        rw [List.length_take]
        omega
      | succ j =>
        show ((createBatchesGo w k (List.drop w (a :: rest))).getD j []).length = w
        apply ih (List.drop w (a :: rest)) j
        · simp only [List.length_drop, List.length_cons]
          simp only [List.length_cons] at hl
          omega
        · rw [List.length_cons] at hi
          omega

/-! ## Trace lemmas -/

theorem pairwise_of_mem_rel {α : Type} {R : α → α → Prop} :
    ∀ l : List α, (∀ a ∈ l, ∀ b ∈ l, R a b) → l.Pairwise R := by
  intro l
  induction l with
  | nil => intro _; exact List.Pairwise.nil
  | cons a rest ih =>
    intro h
    exact List.Pairwise.cons
      (fun b hb => h a (List.mem_cons_self a rest) b (List.mem_cons_of_mem a hb))
      (ih (fun x hx y hy => h x (List.mem_cons_of_mem a hx) y (List.mem_cons_of_mem a hy)))

theorem mem_batchSegment_fst {i : ℕ} {b : List String} {e : ℕ × JudgeEvent}
    (he : e ∈ batchSegment i b) : e.1 = i := by
  unfold batchSegment at he
  rcases List.mem_append.mp he with h | h <;>
    · obtain ⟨t, _, rfl⟩ := List.mem_map.mp h
      rfl

theorem mem_batchTraceGo_fst : ∀ (bs : List (List String)) (i : ℕ) (e : ℕ × JudgeEvent),
    e ∈ batchTraceGo i bs → i ≤ e.1 := by
  intro bs
  induction bs with
  | nil => intro i e he; cases he
  | cons b rest ih =>
    intro i e he
    rcases List.mem_append.mp he with h | h
    · exact le_of_eq (mem_batchSegment_fst h).symm
    · exact Nat.le_of_succ_le (ih (i + 1) e h)

theorem pairwise_batchTraceGo : ∀ (bs : List (List String)) (i : ℕ),
    (batchTraceGo i bs).Pairwise (fun e1 e2 => e1.1 ≤ e2.1) := by
  intro bs
  induction bs with
  | nil => intro i; exact List.Pairwise.nil
  | cons b rest ih =>
    intro i
    show (batchSegment i b ++ batchTraceGo (i + 1) rest).Pairwise _
    rw [List.pairwise_append]
    refine ⟨pairwise_of_mem_rel _ ?_, ih (i + 1), ?_⟩
    · intro e1 h1 e2 h2
      rw [mem_batchSegment_fst h1, mem_batchSegment_fst h2]
    · intro e1 h1 e2 h2
      rw [mem_batchSegment_fst h1]
      exact Nat.le_of_succ_le (mem_batchTraceGo_fst rest (i + 1) e2 h2)

/-- C9: for a positive batch width `w`, `_createBatches` splits the topic list
into `ceil(n / w)` consecutive batches whose concatenation is the original
list, every batch nonempty of size at most `w` and every non-final batch of
size exactly `w`; and in the batch-loop trace no event of a later batch (in
particular no issue) precedes any event of an earlier batch (in particular
any resolution): the batch tags along the trace are non-decreasing. -/
theorem c9_batching (topics : List String) (w : ℕ) (hw : 0 < w) :
    ((createBatches topics w).flatten = topics) ∧
    ((createBatches topics w).length = (topics.length + w - 1) / w) ∧
    (∀ b ∈ createBatches topics w, b ≠ [] ∧ b.length ≤ w) ∧
    (∀ i, i + 1 < (createBatches topics w).length →
      ((createBatches topics w).getD i []).length = w) ∧
    ((batchTrace topics w).Pairwise (fun e1 e2 => e1.1 ≤ e2.1)) := by
  have hne : w ≠ 0 := Nat.pos_iff_ne_zero.mp hw
  have hcb : createBatches topics w = createBatchesGo w topics.length topics := by
    unfold createBatches
    rw [if_neg hne]
  refine ⟨?_, ?_, ?_, ?_, ?_⟩
  · rw [hcb]
    exact createBatchesGo_flatten w hw topics.length topics le_rfl
  · rw [hcb]
    exact createBatchesGo_length w hw topics.length topics le_rfl
  · rw [hcb]
    exact fun b hb => createBatchesGo_mem_sizes w hw topics.length topics b hb
  · rw [hcb]
    exact fun i hi => createBatchesGo_inner_sizes w hw topics.length topics i le_rfl hi
  · unfold batchTrace
    exact pairwise_batchTraceGo (createBatches topics w) 0

/-- Witness for C9: five topics with batch width 3 give batch sizes `[3, 2]`
whose concatenation is the topic list. -/
theorem c9_witness :
    ((createBatches ["t1", "t2", "t3", "t4", "t5"] 3).map List.length = [3, 2]) ∧
      ((createBatches ["t1", "t2", "t3", "t4", "t5"] 3).flatten
        = ["t1", "t2", "t3", "t4", "t5"]) :=
  ⟨rfl, (c9_batching ["t1", "t2", "t3", "t4", "t5"] 3 (by norm_num)).1⟩

/-- C10: for every recognized numeric option of the two constructors,
explicitly passing `0` resolves to the documented default exactly as omitting
the option does (JavaScript `||` treats `0` as absent); consequently
`minMatchScore` and `fuzzyWeight` can never be configured to `0`. -/
theorem c10_zero_option_selects_default :
    (∀ o : SMOptions, mkSMConfig { o with minMatchScore := some 0 }
      = mkSMConfig { o with minMatchScore := none }) ∧
    (∀ o : SMOptions, mkSMConfig { o with fuzzyWeight := some 0 }
      = mkSMConfig { o with fuzzyWeight := none }) ∧
    (∀ o : SMOptions, mkSMConfig { o with cosineWeight := some 0 }
      = mkSMConfig { o with cosineWeight := none }) ∧
    (∀ o : SMOptions, mkSMConfig { o with aiWeight := some 0 }
      = mkSMConfig { o with aiWeight := none }) ∧
    (∀ o : SMOptions, mkSMConfig { o with maxConcurrentAIRequests := some 0 }
      = mkSMConfig { o with maxConcurrentAIRequests := none }) ∧
    (∀ o : DAOptions, mkDAConfig { o with minTextLength := some 0 }
      = mkDAConfig { o with minTextLength := none }) ∧
    (∀ o : DAOptions, mkDAConfig { o with sectionThreshold := some 0 }
      = mkDAConfig { o with sectionThreshold := none }) ∧
    (∀ o : DAOptions, mkDAConfig { o with titleThreshold := some 0 }
      = mkDAConfig { o with titleThreshold := none }) ∧
    (∀ o : SMOptions, (mkSMConfig o).minMatchScore ≠ 0) ∧
    (∀ o : SMOptions, (mkSMConfig o).fuzzyWeight ≠ 0) := by
  have hnum : ∀ d : ℚ, jsNumOr (some 0) d = jsNumOr none d := by
    intro d
    simp [jsNumOr]
  have hnat : ∀ d : ℕ, jsNatOr (some 0) d = jsNatOr none d := by
    intro d
    simp [jsNatOr]
  have hnz : ∀ (v : Option ℚ) (d : ℚ), d ≠ 0 → jsNumOr v d ≠ 0 := by
    intro v d hd
    cases v with
    | none => exact hd
    | some x =>
      by_cases hx : x = 0
      · simp [jsNumOr, hx, hd]
      · simp [jsNumOr, hx]
  refine ⟨?_, ?_, ?_, ?_, ?_, ?_, ?_, ?_, ?_, ?_⟩
  · intro o; simp [mkSMConfig, hnum]
  · intro o; simp [mkSMConfig, hnum]
  · intro o; simp [mkSMConfig, hnum]
  · intro o; simp [mkSMConfig, hnum]
  · intro o; simp [mkSMConfig, hnat]
  · intro o; simp [mkDAConfig, hnat]
  · intro o; simp [mkDAConfig, hnum]
  · intro o; simp [mkDAConfig, hnum]
  · intro o
    exact hnz o.minMatchScore (1/10) (by norm_num)
  · intro o
    exact hnz o.fuzzyWeight (3/10) (by norm_num)

/-- Witness for C10: the two "cannot be zero" conclusions instantiated at the
all-zero options object, whose resolved configuration is the default one. -/
theorem c10_witness :
    mkSMConfig ⟨some 0, none, some 0, some 0, some 0, some 0, some 0⟩ = defaultSMConfig ∧
      (mkSMConfig noSMOptions).minMatchScore ≠ 0 ∧
      (mkSMConfig noSMOptions).fuzzyWeight ≠ 0 :=
  ⟨by simp [mkSMConfig, defaultSMConfig, noSMOptions, jsNumOr, jsNatOr],
   (c10_zero_option_selects_default).2.2.2.2.2.2.2.2.1 noSMOptions,
   (c10_zero_option_selects_default).2.2.2.2.2.2.2.2.2 noSMOptions⟩

end DocParser
